import Mathlib

/-!
# Shallow embedding of The-Moderator's session world-state machine

This file embeds the core state machine of the repository (the world model,
event lifecycle, outcome application and session operations of
`src/server.py`, together with the `Moderator.time_skip` variant of
`src/agent-engine/main.py`) as executable Lean definitions, and proves or
refutes the specification's claims about them.

Conventions of the embedding:
* Python `float` values become `ℚ` (the code only adds, compares and clamps,
  so exact rationals model it faithfully; no claim depends on rounding).
* Python dicts become association lists (`List (String × α)`): lookup finds
  the first matching key, assignment overwrites the first occurrence in
  place or appends a fresh key at the end, exactly like insertion-ordered
  Python dicts.
* Every LLM ("Generation Collaborator") call site takes an oracle argument:
  `none` models the call raising an exception (caught by the code's
  `try/except`), `some r` models a successful structured response `r`.
  `random.*` calls become explicit numeric-stream arguments.
* A Python statement that can raise `KeyError` outside any `try` block is
  modelled in the `Option` monad: `none` means the operation dies with an
  unhandled exception and produces no post-state.
-/

namespace TheModerator

/-- Python `str.lower()` (character-wise lowering; written over the char
list so that it evaluates in the kernel). -/
def strLower (s : String) : String :=
  String.mk (s.data.map Char.toLower)

/-- First-match association-list lookup: `d[k]` read on an insertion-ordered
Python dict. -/
def alookup {α : Type} : List (String × α) → String → Option α
  | [], _ => none
  | p :: l, k => if p.1 = k then some p.2 else alookup l k

/-- Association-list assignment `d[k] = v` on an insertion-ordered Python
dict: overwrite the (first) occurrence in place when the key exists, append
otherwise. -/
def aset {α : Type} : List (String × α) → String → α → List (String × α)
  | [], k, v => [(k, v)]
  | p :: l, k, v => if p.1 = k then (k, v) :: l else p :: aset l k v

/-- Keys of the association list, in order. -/
def akeys {α : Type} (l : List (String × α)) : List String :=
  l.map Prod.fst

/-! ## Data classes (`src/server.py` section 2) -/

/-- `server.py` `Leader` dataclass (lines 98-107). -/
structure Leader where
  code : String
  name : String
  age : Nat
  traits : List (String × ℚ)
  econ_power : ℚ
  war_power : ℚ
  population : Int
  backstory : String
deriving DecidableEq, Repr

/-- `server.py` `Country` dataclass (lines 109-113). -/
structure Country where
  code : String
  leader : Leader
  relationships : List (String × ℚ)
deriving DecidableEq, Repr

/-- `server.py` `Event` dataclass (lines 115-124); the `audio_base64`
payload is speech-synthesis output (out-of-scope collaborator) and is
omitted. -/
structure Event where
  eid : String
  title : String
  description : String
  e_type : String
  cycles_alive : Nat := 0
  resolved : Bool := false
  addressed : Bool := false
deriving DecidableEq, Repr

/-- `server.py` `WorldState` dataclass (lines 126-130). -/
structure WorldState where
  countries : List (String × Country) := []
  events : List Event := []
  meeting_number : Nat := 0
deriving DecidableEq, Repr

/-- `world.countries[a].relationships[b]` read as an option. -/
def WorldState.relLookup (w : WorldState) (a b : String) : Option ℚ :=
  (alookup w.countries a).bind fun c => alookup c.relationships b

/-- `world.countries[a].relationships[b] = v`; `none` when country `a` does
not exist (a Python `KeyError`). -/
def setCountryRel (w : WorldState) (a b : String) (v : ℚ) :
    Option WorldState :=
  match alookup w.countries a with
  | none => none
  | some ca =>
      some { w with
              countries := aset w.countries a
                { ca with relationships := aset ca.relationships b v } }

/-- `TRAIT_NAMES` (`server.py` line 59). -/
def TRAIT_NAMES : List String :=
  ["honest", "ambitious", "empathetic", "diplomatic", "ruthless"]

/-- Python `max(traits.items(), key=lambda x: x[1])[0]`: the first key of
maximal value (Python `max` keeps the earliest maximal element). -/
def dominantTrait (traits : List (String × ℚ)) : String :=
  match traits with
  | [] => ""
  | t :: ts => (ts.foldl (fun best p => if best.2 < p.2 then p else best) t).1

/-! ## Leader agent (`src/server.py` section 4) -/

/-- The trait-keyed canned fallback of `LeaderAgent.speak`
(`server.py` lines 205-213): `fallback_responses.get(dominant_trait, ...)`. -/
def fallbackLine (t : String) : String :=
  if t = "honest" then
    "We must address these issues with complete transparency."
  else if t = "ambitious" then
    "This is an opportunity for decisive action."
  else if t = "empathetic" then
    "We must consider all those affected by these crises."
  else if t = "diplomatic" then
    "I believe we can find common ground through dialogue."
  else if t = "ruthless" then
    "We will do whatever is necessary to protect our interests."
  else
    "We must work together on these challenges."

/-- A leader agent's conversational state: the `(role, text)` memory list
(`server.py` line 169). -/
structure AgentState where
  memory : List (String × String) := []
deriving DecidableEq, Repr

/-- `LeaderAgent.speak` (`server.py` lines 190-213).  `resp` is the
Generation Collaborator's reply (`none` = the `llm.invoke` call raised).
On success the reply is appended to the agent's own memory tagged
`"assistant"`; on failure the trait-keyed canned line is returned and the
memory is left untouched. -/
def LeaderAgent.speak (resp : Option String) (leader : Leader)
    (ag : AgentState) : String × AgentState :=
  match resp with
  | some reply => (reply, { ag with memory := ag.memory ++ [("assistant", reply)] })
  | none => (fallbackLine (dominantTrait leader.traits), ag)

/-! ## Event agent (`src/server.py` section 5) -/

namespace EventAgent

/-- `EventAgent.MAX_EVENTS` (`server.py` line 217). -/
def MAX_EVENTS : Nat := 3

/-- One structured generation response `{eid,title,description,e_type}`. -/
structure GenEvent where
  eid : String
  title : String
  description : String
  e_type : String
deriving DecidableEq, Repr

/-- The 5-attempt generation loop of `EventAgent.generate_multiple`
(`server.py` lines 223-252).  `resp fuel` is the collaborator outcome of
the attempt with `fuel` attempts remaining (`none` = raised or unparsable,
all swallowed by the bare `except`).  A candidate is accepted when its
title is fresh both case-insensitively versus active events (`exist`) and
exactly versus the candidates accepted in this call. -/
def attemptLoop (resp : Nat → Option GenEvent) :
    Nat → List Event → List String → List Event
  | 0, acc, _ => acc
  | fuel + 1, acc, exist =>
    if MAX_EVENTS ≤ acc.length then acc
    else
      match resp (fuel + 1) with
      | some d =>
          if exist.contains (strLower d.title) ∨
              (acc.map Event.title).contains d.title then
            attemptLoop resp fuel acc exist
          else
            attemptLoop resp fuel
              (acc ++ [{ eid := d.eid, title := d.title,
                         description := d.description, e_type := d.e_type }])
              (exist ++ [strLower d.title])
      | none => attemptLoop resp fuel acc exist

/-- The fallback `while` loop of `generate_multiple` (`server.py` lines
258-263): top up to `MAX_EVENTS` with deterministic events.  `pick j`
models the two `random.choice` draws (country code, event type) made when
the accumulator has `j` events; `ncur` is `len(w.events)` used in the
fallback id.  The loop adds one event per iteration, so fuel
`MAX_EVENTS` suffices. -/
def fallbackFill (ncur : Nat) (pick : Nat → String × String) :
    Nat → List Event → List Event
  | 0, acc => acc
  | fuel + 1, acc =>
    if MAX_EVENTS ≤ acc.length then acc
    else
      let c := (pick acc.length).1
      let et := (pick acc.length).2
      let fid := "E" ++ toString (ncur + acc.length + 1)
      fallbackFill ncur pick fuel
        (acc ++ [{ eid := fid, title := et ++ " in Country " ++ c,
                   description := "Low-impact " ++ strLower et ++ ".",
                   e_type := "misc" }])

/-- `EventAgent.generate_multiple` (`server.py` lines 219-265). -/
def generate_multiple (resp : Nat → Option GenEvent)
    (pick : Nat → String × String) (w : WorldState) : List Event :=
  let exist := w.events.map (fun e => strLower e.title)
  let evs := attemptLoop resp 5 [] exist
  fallbackFill w.events.length pick MAX_EVENTS evs

/-- One structured evolution response `{title,description,resolved}`; every
field individually optional, matching the `d.get(...)` reads. -/
structure EvolveResp where
  title : Option String := none
  description : Option String := none
  resolved : Option Bool := none
deriving DecidableEq, Repr

/-- `EventAgent.evolve` (`server.py` lines 267-283).  On collaborator
success the event's title/description/resolved are overwritten by the
reported fields (defaulting to the current values); on failure the random
fallback resolves the event when `cycles_alive > 2` and the draw `r` is
below `0.3`. -/
def evolve (resp : Option EvolveResp) (r : ℚ) (e : Event) : Event :=
  match resp with
  | some d =>
      { e with title := d.title.getD e.title,
               description := d.description.getD e.description,
               resolved := d.resolved.getD e.resolved }
  | none =>
      if 2 < e.cycles_alive ∧ r < 3 / 10 then { e with resolved := true }
      else e

end EventAgent

/-- `ResolutionAgent.decide` (`server.py` lines 287-296).  `resp` is the
collaborator outcome: `none` = the call raised (fallback: a draw below
`0.4` resolves); `some v` = JSON parsed, with `v` the optional
`"resolved"` field (absent defaults to `False`). -/
def ResolutionAgent.decide (resp : Option (Option Bool)) (r : ℚ) : Bool :=
  match resp with
  | some v => v.getD false
  | none => if r < 2 / 5 then true else false

/-! ## Meeting outcome analyzer (`src/server.py` section 6) -/

/-- Python `int(q)` on a rational: truncation toward zero. -/
def qtrunc (q : ℚ) : Int :=
  if 0 ≤ q then ⌊q⌋ else ⌈q⌉

/-- One per-country stat delta `{"econ": ..., "war": ..., "pop": ...}`;
fields individually optional, matching `changes.get("econ", 0)` etc. -/
structure StatDelta where
  econ : Option ℚ := none
  war : Option ℚ := none
  pop : Option Int := none
deriving DecidableEq, Repr

/-- The analyzer result shape; each top-level key individually optional,
matching `outcomes.get("stat_changes", {})`, `.get("relationship_changes",
[])` and `.get("summary", ...)`. -/
structure Outcomes where
  stat_changes : Option (List (String × StatDelta)) := none
  relationship_changes : Option (List (String × String × ℚ)) := none
  summary : Option String := none
deriving DecidableEq, Repr

/-- The deterministic-shape random fallback of
`MeetingOutcomeAnalyzer.analyze_meeting_outcomes` (`server.py` lines
347-357): per-country uniform noise `(random()-0.5)*0.1` for econ and war
and `int((random()-0.5)*1000000)` for population, an empty relationship
change list and a generic summary.  `r` is the stream of `random.random()`
draws, consumed three per country in country order. -/
def fallbackOutcomes (countries : List String) (r : Nat → ℚ) : Outcomes :=
  { stat_changes := some <| (List.range countries.length).map fun i =>
      (countries.getD i "",
        { econ := some ((r (3 * i) - 1 / 2) * (1 / 10)),
          war := some ((r (3 * i + 1) - 1 / 2) * (1 / 10)),
          pop := some (qtrunc ((r (3 * i + 2) - 1 / 2) * 1000000)) }),
    relationship_changes := some [],
    summary :=
      some "Mixed diplomatic outcomes with some progress on key issues." }

/-- `MeetingOutcomeAnalyzer.analyze_meeting_outcomes` (`server.py` lines
299-357): return the collaborator's parsed JSON, or the random fallback
when the call raised or produced no parsable JSON. -/
def analyze_meeting_outcomes (resp : Option Outcomes)
    (countries : List String) (r : Nat → ℚ) : Outcomes :=
  match resp with
  | some o => o
  | none => fallbackOutcomes countries r

/-! ## Game session (`src/server.py` section 7) -/

/-- One entry of the `responses` list built by
`GameSession.conduct_round`; the `audio_base64` key is speech synthesis
and omitted. -/
structure RoundResponse where
  speaker : String
  content : String
  rtype : String
  country : Option String := none
deriving DecidableEq, Repr

/-- The per-session state: the world, the per-country leader agents (in
`self.leaders` order), the meeting transcript and the spawned/resolved
counters (`server.py` lines 360-370). -/
structure GameSession where
  world : WorldState
  agents : List (String × AgentState)
  transcript : List String := []
  spawned : Nat := 0
  resolvedTotal : Nat := 0
deriving DecidableEq, Repr

/-- The broadcast loop of `conduct_round` (`server.py` lines 417-420):
append `msg` to the memory of every agent other than `speaker`. -/
def broadcastToOthers (agents : List (String × AgentState)) (speaker : String)
    (msg : String) : List (String × AgentState) :=
  agents.map fun p =>
    if p.1 = speaker then p
    else (p.1, { p.2 with memory := p.2.memory ++ [("user", msg)] })

/-- The per-leader body of the `conduct_round` loop (`server.py` lines
399-422), iterated over the leader codes in order: the agent speaks, a
response entry is built, the utterance is broadcast to every other agent's
memory and appended to the transcript.  Returns the final agents, the
response list and the transcript additions.  The lookups cannot fail in
the source (`self.leaders` is built from `world.countries`); a failed
lookup is modelled as skipping the speaker. -/
def conductRoundLoop (oracle : String → Option String) (world : WorldState) :
    List String → List (String × AgentState) →
    List (String × AgentState) × List RoundResponse × List String
  | [], agents => (agents, [], [])
  | code :: rest, agents =>
    match alookup agents code, alookup world.countries code with
    | some ag, some ctry =>
        let leader := ctry.leader
        let sp := LeaderAgent.speak (oracle code) leader ag
        let agents1 := aset agents code sp.2
        let resp : RoundResponse :=
          { speaker := leader.name ++ " (" ++ dominantTrait leader.traits ++ ")",
            content := sp.1, rtype := "leader", country := some code }
        let agents2 := broadcastToOthers agents1 code
          (leader.name ++ " said: " ++ sp.1)
        let rec1 := conductRoundLoop oracle world rest agents2
        (rec1.1, resp :: rec1.2.1, (leader.name ++ ": " ++ sp.1) :: rec1.2.2)
    | _, _ => conductRoundLoop oracle world rest agents

/-- `GameSession.conduct_round` (`server.py` lines 393-438).  `oracle c`
is the Generation Collaborator outcome for leader `c`'s speak call.  The
`player_message` branch mirrors Python truthiness: the empty string is
skipped. -/
def GameSession.conduct_round (oracle : String → Option String)
    (s : GameSession) (selIds : List String) (playerMsg : String) :
    List RoundResponse × GameSession :=
  let codes := akeys s.agents
  let loopRes := conductRoundLoop oracle s.world codes s.agents
  let agents1 := loopRes.1
  let responses := loopRes.2.1
  let tlines := loopRes.2.2
  if playerMsg ≠ "" then
    let responses1 := responses ++
      [{ speaker := "UN Secretary-General", content := playerMsg,
         rtype := "player" }]
    let agents2 := agents1.map fun p =>
      (p.1, { p.2 with memory := p.2.memory ++ [("user", playerMsg)] })
    (responses1,
      { s with agents := agents2,
               transcript := s.transcript ++ tlines ++ ["PLAYER: " ++ playerMsg] })
  else
    (responses, { s with agents := agents1, transcript := s.transcript ++ tlines })

/-- The stat-change application of `end_meeting` (`server.py` lines
459-462): clamp econ/war to `[0.1, 1.0]` and population to `≥ 1`. -/
def applyDeltaToLeader (l : Leader) (ch : StatDelta) : Leader :=
  { l with
    econ_power := max (1 / 10) (min 1 (l.econ_power + ch.econ.getD 0)),
    war_power := max (1 / 10) (min 1 (l.war_power + ch.war.getD 0)),
    population := max 1 (l.population + ch.pop.getD 0) }

/-- The stat-change loop of `end_meeting` (`server.py` lines 456-462):
guarded by `if country_code in self.world.countries`. -/
def applyStatChanges : WorldState → List (String × StatDelta) → WorldState
  | w, [] => w
  | w, (code, ch) :: rest =>
    match alookup w.countries code with
    | some c =>
        let c1 := { c with leader := applyDeltaToLeader c.leader ch }
        applyStatChanges { w with countries := aset w.countries code c1 } rest
    | none => applyStatChanges w rest

/-- One relationship change of `end_meeting` (`server.py` lines 466-470)
and of `Moderator.time_skip` (`agent-engine/main.py` lines 347-352):
guarded by `a in countries and b in countries[a].relationships`; the
clamped value is written to both directions.  The second write indexes
`countries[b]` without a guard, hence the `Option`: `none` is the Python
`KeyError` when `b` is a relationship key but not a country. -/
def applyRelChange (w : WorldState) (a b : String) (delta : ℚ) :
    Option WorldState :=
  match alookup w.countries a with
  | none => some w
  | some ca =>
    match alookup ca.relationships b with
    | none => some w
    | some old =>
        match setCountryRel w a b (max 0 (min 1 (old + delta))) with
        | none => none
        | some w1 => setCountryRel w1 b a (max 0 (min 1 (old + delta)))

/-- The relationship-change loop of `end_meeting` (`server.py` lines
465-470). -/
def applyRelChanges : WorldState → List (String × String × ℚ) →
    Option WorldState
  | w, [] => some w
  | w, (a, b, delta) :: rest =>
    match applyRelChange w a b delta with
    | none => none
    | some w1 => applyRelChanges w1 rest

/-- The resolution-check loop of `end_meeting` (`server.py` lines
472-477), fused with the `selected_events` filter: each event whose id is
selected consumes one `ResolutionAgent.decide` outcome (`decResp`/`rdec`
indexed by position among selected events) and is marked resolved exactly
when the decision is positive and `cycles_alive > 0`.  Returns the events
and the number of `self.resolved` increments. -/
def resolveLoop (selIds : List String) (decResp : Nat → Option (Option Bool))
    (rdec : Nat → ℚ) : Nat → List Event → List Event × Nat
  | _, [] => ([], 0)
  | j, e :: rest =>
    if selIds.contains e.eid then
      let dres := ResolutionAgent.decide (decResp j) (rdec j)
      let hit := dres = true ∧ 0 < e.cycles_alive
      let e1 := if hit then { e with resolved := true } else e
      let rec1 := resolveLoop selIds decResp rdec (j + 1) rest
      (e1 :: rec1.1, (if hit then 1 else 0) + rec1.2)
    else
      let rec1 := resolveLoop selIds decResp rdec j rest
      (e :: rec1.1, rec1.2)

/-- `GameSession.end_meeting` (`server.py` lines 440-482).  `analyzed` is
the outcome-analyzer collaborator response, `decResp`/`rdec` the
resolution decisions, `r` the random stream of the analyzer fallback.
`none` means the call died on an unhandled `KeyError` in the
relationship-change loop. -/
def GameSession.end_meeting (analyzed : Option Outcomes)
    (decResp : Nat → Option (Option Bool)) (rdec : Nat → ℚ) (r : Nat → ℚ)
    (s : GameSession) (selIds : List String) :
    Option (Outcomes × GameSession) :=
  let evs1 := s.world.events.map fun e =>
    if selIds.contains e.eid then { e with addressed := true } else e
  let w1 := { s.world with events := evs1 }
  let outcomes := analyze_meeting_outcomes analyzed (akeys w1.countries) r
  let w2 := applyStatChanges w1 (outcomes.stat_changes.getD [])
  match applyRelChanges w2 (outcomes.relationship_changes.getD []) with
  | none => none
  | some w3 =>
    let res := resolveLoop selIds decResp rdec 0 w3.events
    let w4 := { w3 with events := res.1, meeting_number := w3.meeting_number + 1 }
    some (outcomes,
      { s with world := w4, transcript := [],
               resolvedTotal := s.resolvedTotal + res.2 })

/-- The evolve loop of `GameSession.time_skip` (`server.py` lines
486-490): iterate over a snapshot of the events, increment `cycles_alive`,
evolve, and drop the event when now resolved.  (In-place mutation plus
`list.remove` always removes the iterated object: a removed event has
`resolved = True` and can never compare equal to an earlier surviving
event, whose `resolved` is `False`.)  Oracle streams are indexed by
position in the original list. -/
def evolveLoop (resp : Nat → Option EventAgent.EvolveResp) (r : Nat → ℚ) :
    Nat → List Event → List Event
  | _, [] => []
  | i, e :: rest =>
    let e1 := EventAgent.evolve (resp i) (r i)
      { e with cycles_alive := e.cycles_alive + 1 }
    if e1.resolved then evolveLoop resp r (i + 1) rest
    else e1 :: evolveLoop resp r (i + 1) rest

/-- The insertion loop shared by `_generate_initial_events` (`server.py`
lines 372-380) and `time_skip` (lines 494-501): append each generated
event whose title is not already present, counting `self.spawned`
increments. -/
def insertEvents : WorldState → Nat → List Event → WorldState × Nat
  | w, n, [] => (w, n)
  | w, n, e :: rest =>
    if (w.events.map Event.title).contains e.title then
      insertEvents w n rest
    else
      insertEvents { w with events := w.events ++ [e] } (n + 1) rest

/-- `GameSession.time_skip` (`server.py` lines 484-505): evolve and filter
events, top up through `generate_multiple` when fewer than 3 remain, then
reset every `addressed` flag. -/
def GameSession.time_skip (eresp : Nat → Option EventAgent.EvolveResp)
    (er : Nat → ℚ) (gresp : Nat → Option EventAgent.GenEvent)
    (pick : Nat → String × String) (s : GameSession) : GameSession :=
  let evs := evolveLoop eresp er 0 s.world.events
  let w1 : WorldState := { s.world with events := evs }
  let spawnRes : WorldState × Nat :=
    if w1.events.length < 3 then
      insertEvents w1 0 (EventAgent.generate_multiple gresp pick w1)
    else (w1, 0)
  let w2 := spawnRes.1
  let w3 := { w2 with events := w2.events.map fun e => { e with addressed := false } }
  { s with world := w3, spawned := s.spawned + spawnRes.2 }

/-- `GameSession._generate_initial_events` (`server.py` lines 372-380). -/
def GameSession.generate_initial_events
    (gresp : Nat → Option EventAgent.GenEvent)
    (pick : Nat → String × String) (s : GameSession) : GameSession :=
  let res := insertEvents s.world 0
    (EventAgent.generate_multiple gresp pick s.world)
  { s with world := res.1, spawned := s.spawned + res.2 }

/-! ## World generation (`src/server.py` section 3) -/

/-- The country code of index `i`: `chr(ord("A") + i)`. -/
def mkCode (i : Nat) : String :=
  String.mk [Char.ofNat (65 + i)]

/-- `codes = [chr(ord("A") + i) for i in range(n)]` (`server.py` line
155). -/
def worldCodes (n : Nat) : List String :=
  (List.range n).map mkCode

/-- The traits dict `{t: rand01() for t in TRAIT_NAMES}` (`server.py` line
134); `tv` is the per-trait `rand01()` stream. -/
def mkTraits (tv : Nat → ℚ) : List (String × ℚ) :=
  (List.range TRAIT_NAMES.length).map fun i => (TRAIT_NAMES.getD i "", tv i)

/-- `generate_leader` (`server.py` lines 133-151).  Randomness becomes
explicit arguments: `tv` the trait values, `ag` the age draw, `ev`/`wv`
the econ/war `rand01()` draws, `pk` the `randint(5, 300)` population
factor.  `bioResp` is the bio generation outcome; the fallback bio names
the dominant trait. -/
def generate_leader (tv : Nat → ℚ) (ag : Nat) (ev wv : ℚ) (pk : Nat)
    (bioResp : Option String) (code : String) : Leader :=
  let traits := mkTraits tv
  { code := code
    name := "Leader_" ++ code
    age := ag
    traits := traits
    econ_power := ev
    war_power := wv
    population := (pk : Int) * 1000000
    backstory :=
      match bioResp with
      | some b => b
      | none =>
          "Leader of country " ++ code ++ ", known for their " ++
            dominantTrait traits ++ " approach to governance." }

/-- Total both-ways relationship write used by `init_world`; the keys
always exist there, so the impossible `KeyError` branch returns the world
unchanged. -/
def setRelPair (w : WorldState) (a b : String) (v : ℚ) : WorldState :=
  match setCountryRel w a b v with
  | none => w
  | some w1 =>
    match setCountryRel w1 b a v with
    | none => w1
    | some w2 => w2

/-- The index pairs `(i, j)` with `i < j < n` visited by the nested
relationship loops of `init_world` (`server.py` lines 158-162), in loop
order. -/
def pairList (n : Nat) : List (Nat × Nat) :=
  (List.range n).flatMap fun i =>
    ((List.range n).filter fun j => i < j).map fun j => (i, j)

/-- `init_world` (`server.py` lines 153-163).  Per-country randomness is
indexed by country position (`tv i`, `ag i`, ...); `rw i j` is the
`rand01()` relationship weight drawn for the pair `(i, j)` with `i < j`. -/
def init_world (n : Nat) (tv : Nat → Nat → ℚ) (ag : Nat → Nat)
    (ev wv : Nat → ℚ) (pk : Nat → Nat) (bio : Nat → Option String)
    (rw : Nat → Nat → ℚ) : WorldState :=
  let codes := worldCodes n
  let base : WorldState :=
    { countries := (List.range n).map fun i =>
        (mkCode i,
          { code := mkCode i,
            leader := generate_leader (tv i) (ag i) (ev i) (wv i) (pk i)
              (bio i) (mkCode i),
            relationships := [] }),
      events := [], meeting_number := 0 }
  (pairList n).foldl
    (fun w p => setRelPair w (codes.getD p.1 "") (codes.getD p.2 "") (rw p.1 p.2))
    base

/-- One entry of the first loop of `init_world`:
`Country(c, generate_leader(c), {})` (`server.py` line 157). -/
def initCountry (tv : Nat → Nat → ℚ) (ag : Nat → Nat) (ev wv : Nat → ℚ)
    (pk : Nat → Nat) (bio : Nat → Option String) (i : Nat) : Country :=
  { code := mkCode i,
    leader := generate_leader (tv i) (ag i) (ev i) (wv i) (pk i)
      (bio i) (mkCode i),
    relationships := [] }

/-- The world after the country-creation loop of `init_world`, before the
relationship loops (`server.py` lines 154-157). -/
def initBase (n : Nat) (tv : Nat → Nat → ℚ) (ag : Nat → Nat)
    (ev wv : Nat → ℚ) (pk : Nat → Nat) (bio : Nat → Option String) :
    WorldState :=
  { countries := (List.range n).map fun i =>
      (mkCode i, initCountry tv ag ev wv pk bio i),
    events := [], meeting_number := 0 }

/-! ## The agent-engine `Moderator` variant
(`src/agent-engine/main.py`) -/

namespace Engine

/-- One per-country delta of `SummaryAgent.consequences`; the
`time_skip` application reads `d["econ"]`, `d["war"]`, `d["pop"]` without
defaults, so a missing field is a `KeyError`. -/
structure MDelta where
  econ : Option ℚ := none
  war : Option ℚ := none
  pop : Option Int := none
deriving DecidableEq, Repr

/-- The `SummaryAgent.consequences` result shape
(`agent-engine/main.py` lines 215-256); `summary` and `deltas` are read
with bare indexing in `time_skip`, `relations` with `.get(..., [])`. -/
structure MSummary where
  summaryText : Option String := none
  deltas : Option (List (String × MDelta)) := none
  relations : Option (List (String × String × ℚ)) := none
deriving DecidableEq, Repr

/-- The deterministic fallback of `SummaryAgent.consequences`
(`agent-engine/main.py` lines 252-256): zero deltas for every country,
no relation changes. -/
def fallbackMSummary (countries : List String) : MSummary :=
  { summaryText := some "No major developments.",
    deltas := some (countries.map fun c =>
      (c, { econ := some 0, war := some 0, pop := some 0 })),
    relations := some [] }

/-- The leader-delta application of `Moderator.time_skip`
(`agent-engine/main.py` lines 341-344): same clamps as the server
variant; `none` when a required field is missing (`KeyError`). -/
def applyMDelta (l : Leader) (d : MDelta) : Option Leader :=
  match d.econ, d.war, d.pop with
  | some de, some dw, some dp =>
      some { l with
        econ_power := max (1 / 10) (min 1 (l.econ_power + de)),
        war_power := max (1 / 10) (min 1 (l.war_power + dw)),
        population := max 1 (l.population + dp) }
  | _, _, _ => none

/-- The delta loop of `Moderator.time_skip` (`agent-engine/main.py`
lines 340-344): `self.world.countries[k]` is indexed without a guard, so
an unknown country key is a `KeyError` (`none`). -/
def applyLeaderDeltas : WorldState → List (String × MDelta) →
    Option WorldState
  | w, [] => some w
  | w, (k, d) :: rest =>
    match alookup w.countries k with
    | none => none
    | some c =>
      match applyMDelta c.leader d with
      | none => none
      | some l1 =>
          applyLeaderDeltas
            { w with countries := aset w.countries k ({ c with leader := l1 }) }
            rest

/-- `EventAgent.generate` of the engine (`agent-engine/main.py` lines
147-180).  The outer `Option` is a crash: `llm.invoke` is called outside
the `try`, so a transport failure propagates.  `resp i = some none` means
the call returned unparsable/duplicate JSON (swallowed); `resp i = some
(some d)` a parsed candidate.  Returns `some none` when the pool is
already full. -/
def generate (resp : Nat → Option (Option EventAgent.GenEvent))
    (rc : String) (w : WorldState) : Option (Option Event) :=
  if EventAgent.MAX_EVENTS ≤ w.events.length then some none
  else
    let exist := w.events.map fun e => strLower e.title
    let fallbackEvt : Event :=
      { eid := "E" ++ toString (w.events.length + 1),
        title := "Minor Incident in " ++ rc,
        description := "Low-impact incident.", e_type := "misc" }
    let rec tryAttempts : Nat → Option (Option Event)
      | 0 => some (some fallbackEvt)
      | fuel + 1 =>
        match resp (3 - (fuel + 1)) with
        | none => none
        | some none => tryAttempts fuel
        | some (some d) =>
          if exist.contains (strLower d.title) then tryAttempts fuel
          else some (some { eid := d.eid, title := d.title,
                            description := d.description, e_type := d.e_type })
    tryAttempts 3

/-- `Moderator._maybe_spawn` (`agent-engine/main.py` lines 272-277):
spawn one event when none is active. -/
def maybe_spawn (resp : Nat → Option (Option EventAgent.GenEvent))
    (rc : String) (w : WorldState) : Option WorldState :=
  if w.events.isEmpty then
    match generate resp rc w with
    | none => none
    | some none => some w
    | some (some e) => some { w with events := w.events ++ [e] }
  else some w

/-- The world transformation of `Moderator.time_skip`
(`agent-engine/main.py` lines 324-355): evolve events, obtain the
summary (collaborator or fallback), apply leader stat deltas (clamped),
apply relationship deltas (clamped, symmetric), then maybe-spawn.
`none` models the call dying on an unhandled exception. -/
def time_skip_world (eresp : Nat → Option EventAgent.EvolveResp)
    (er : Nat → ℚ) (summ : Option MSummary)
    (gresp : Nat → Option (Option EventAgent.GenEvent)) (rc : String)
    (w : WorldState) : Option WorldState :=
  let evs := evolveLoop eresp er 0 w.events
  let w1 : WorldState := { w with events := evs }
  let s := match summ with
    | some s0 => s0
    | none => fallbackMSummary (akeys w1.countries)
  match s.summaryText, s.deltas with
  | some _, some ds =>
    (match applyLeaderDeltas w1 ds with
     | none => none
     | some w2 =>
       match applyRelChanges w2 (s.relations.getD []) with
       | none => none
       | some w3 => maybe_spawn gresp rc w3)
  | _, _ => none

end Engine

/-! ## API routes (`src/server.py` section "API Routes") -/

/-- The in-process session table `game_sessions` (`server.py` line 508). -/
def Sessions : Type := List (String × GameSession)

/-- `/api/conduct-round` (`server.py` lines 655-672): reject an unknown
session id with the 400 `"Invalid session"` error, otherwise run the
round.  Event ids in `selected_event_ids` are only ever used to filter
`world.events`; non-matching ids are silently dropped. -/
def conduct_round_route (oracle : String → Option String)
    (sessions : Sessions) (sid : String) (selIds : List String)
    (playerMsg : String) :
    Except String (List RoundResponse × GameSession) :=
  match alookup sessions sid with
  | none => .error "Invalid session"
  | some s => .ok (s.conduct_round oracle selIds playerMsg)

/-- `/api/end-meeting` (`server.py` lines 674-689).  The outer `Option`
is an unhandled exception inside `end_meeting` (a 500, not the session
check). -/
def end_meeting_route (analyzed : Option Outcomes)
    (decResp : Nat → Option (Option Bool)) (rdec : Nat → ℚ) (r : Nat → ℚ)
    (sessions : Sessions) (sid : String) (selIds : List String) :
    Option (Except String (Outcomes × GameSession)) :=
  match alookup sessions sid with
  | none => some (.error "Invalid session")
  | some s =>
    match s.end_meeting analyzed decResp rdec r selIds with
    | none => none
    | some res => some (.ok res)

/-- `/api/time-skip` (`server.py` lines 691-704). -/
def time_skip_route (eresp : Nat → Option EventAgent.EvolveResp)
    (er : Nat → ℚ) (gresp : Nat → Option EventAgent.GenEvent)
    (pick : Nat → String × String) (sessions : Sessions) (sid : String) :
    Except String GameSession :=
  match alookup sessions sid with
  | none => .error "Invalid session"
  | some s => .ok (s.time_skip eresp er gresp pick)

/-! ## Call sequences and invariants -/

/-- One mutating call on a session, bundled with its collaborator and
randomness oracles: `endM` = `GameSession.end_meeting`, `tskip` =
`GameSession.time_skip`, `mskip` = the `Moderator.time_skip` variant of
`agent-engine/main.py` acting on the session's world. -/
inductive SessionCall where
  | endM : Option Outcomes → (Nat → Option (Option Bool)) → (Nat → ℚ) →
      (Nat → ℚ) → List String → SessionCall
  | tskip : (Nat → Option EventAgent.EvolveResp) → (Nat → ℚ) →
      (Nat → Option EventAgent.GenEvent) → (Nat → String × String) →
      SessionCall
  | mskip : (Nat → Option EventAgent.EvolveResp) → (Nat → ℚ) →
      Option Engine.MSummary → (Nat → Option (Option EventAgent.GenEvent)) →
      String → SessionCall

/-- Apply one session call; `none` = the call died on an unhandled
exception (no post-state). -/
def applyCall (s : GameSession) : SessionCall → Option GameSession
  | .endM a d rd r sel => (s.end_meeting a d rd r sel).map Prod.snd
  | .tskip er r g p => some (s.time_skip er r g p)
  | .mskip er r summ g rc =>
      (Engine.time_skip_world er r summ g rc s.world).map
        fun w => { s with world := w }

/-- Apply a finite sequence of session calls. -/
def applyCalls : GameSession → List SessionCall → Option GameSession
  | s, [] => some s
  | s, c :: cs =>
    match applyCall s c with
    | none => none
    | some s1 => applyCalls s1 cs

/-- Relationship symmetry over the present country codes:
`relationships[A][B] == relationships[B][A]` for distinct countries `A`,
`B`. -/
def SymmRel (w : WorldState) : Prop :=
  ∀ a ∈ akeys w.countries, ∀ b ∈ akeys w.countries, a ≠ b →
    w.relLookup a b = w.relLookup b a

instance (w : WorldState) : Decidable (SymmRel w) := by
  unfold SymmRel
  infer_instance

/-! ## Concrete fixtures used by witnesses and counterexamples -/

def witLeaderA : Leader :=
  { code := "A", name := "Leader_A", age := 50,
    traits := [("honest", 1 / 2), ("ambitious", 3 / 10),
      ("empathetic", 2 / 5), ("diplomatic", 1 / 5), ("ruthless", 1 / 10)],
    econ_power := 1 / 2, war_power := 1 / 2, population := 5000000,
    backstory := "bio A" }

def witLeaderB : Leader :=
  { code := "B", name := "Leader_B", age := 55,
    traits := [("honest", 1 / 5), ("ambitious", 9 / 10),
      ("empathetic", 2 / 5), ("diplomatic", 1 / 5), ("ruthless", 1 / 10)],
    econ_power := 97 / 100, war_power := 3 / 20, population := 8000000,
    backstory := "bio B" }

def witCountryA : Country :=
  { code := "A", leader := witLeaderA, relationships := [("B", 1 / 2)] }

def witCountryB : Country :=
  { code := "B", leader := witLeaderB, relationships := [("A", 1 / 2)] }

def witEvent1 : Event :=
  { eid := "E1", title := "Flood in Country A", description := "d1",
    e_type := "disaster", cycles_alive := 1 }

def witEvent2 : Event :=
  { eid := "E2", title := "Coup in Country B", description := "d2",
    e_type := "conflict", cycles_alive := 2 }

def witEvent3 : Event :=
  { eid := "E3", title := "Market Crash", description := "d3",
    e_type := "economic", cycles_alive := 0 }

def witWorld : WorldState :=
  { countries := [("A", witCountryA), ("B", witCountryB)],
    events := [witEvent1, witEvent2, witEvent3], meeting_number := 0 }

def witSession : GameSession :=
  { world := witWorld,
    agents := [("A", { memory := [] }), ("B", { memory := [] })] }

/-- A concrete `end_meeting` call carrying one relationship change. -/
def witRelCall : SessionCall :=
  .endM
    (some { stat_changes := some [("A", { econ := some (3 / 10) })],
            relationship_changes := some [("A", "B", 1 / 4)],
            summary := some "outcomes" })
    (fun _ => some (some false)) (fun _ => 0) (fun _ => 0) ["E1"]

def witSessionAfterRel : GameSession :=
  (applyCalls witSession [witRelCall]).getD witSession

/-- A stat delta that crosses every bound: econ up past 1.0, war down past
0.1, population far below 1. -/
def witDelta : StatDelta :=
  { econ := some 1, war := some (-1), pop := some (-(10 ^ 9)) }

/-- The engine-variant delta with the same crossings. -/
def witMDelta : Engine.MDelta :=
  { econ := some 1, war := some (-1), pop := some (-(10 ^ 9)) }

/-- An analyzer response with no stat or relationship changes. -/
def witOutcomesEmpty : Outcomes :=
  { stat_changes := some [], relationship_changes := some [],
    summary := some "calm" }

/-- A concrete `end_meeting` selecting only the freshly spawned event
`E3` (`cycles_alive = 0`) with a Resolution Decision that says yes. -/
def witE3Res : Outcomes × GameSession :=
  (witSession.end_meeting (some witOutcomesEmpty) (fun _ => some (some true))
    (fun _ => 0) (fun _ => 0) ["E3"]).getD (witOutcomesEmpty, witSession)

/-- An already-resolved event still sitting in the pool (resolution marks
events resolved but only `time_skip` removes them). -/
def witResolvedEvent : Event :=
  { eid := "E9", title := "Old Crisis", description := "d9",
    e_type := "conflict", cycles_alive := 3, resolved := true }

/-- The leader of a country code, with a junk default for the impossible
missing-country case (used only to state loop characterizations). -/
def leaderAt (w : WorldState) (code : String) : Leader :=
  match alookup w.countries code with
  | some c => c.leader
  | none =>
      { code := "", name := "", age := 0, traits := [], econ_power := 0,
        war_power := 0, population := 0, backstory := "" }

/-- The response record `conduct_round` builds for a leader whose speak
call fell back to the canned line (used to state the all-failures round
characterization). -/
def fallbackRoundResponse (w : WorldState) (code : String) : RoundResponse :=
  { speaker := (leaderAt w code).name ++ " (" ++
      dominantTrait (leaderAt w code).traits ++ ")",
    content := fallbackLine (dominantTrait (leaderAt w code).traits),
    rtype := "leader", country := some code }

/-- Fixture leaders with integer-valued traits (kernel-evaluable
comparisons) for the route/round computations. -/
def simLeaderA : Leader :=
  { code := "A", name := "Leader_A", age := 50,
    traits := [("honest", 0), ("ambitious", 1), ("empathetic", 0),
      ("diplomatic", 0), ("ruthless", 0)],
    econ_power := 1, war_power := 1, population := 5000000,
    backstory := "bio A" }

def simLeaderB : Leader :=
  { code := "B", name := "Leader_B", age := 55,
    traits := [("honest", 0), ("ambitious", 0), ("empathetic", 0),
      ("diplomatic", 1), ("ruthless", 0)],
    econ_power := 1, war_power := 1, population := 8000000,
    backstory := "bio B" }

def simWorld : WorldState :=
  { countries :=
      [("A", { code := "A", leader := simLeaderA, relationships := [("B", 1)] }),
       ("B", { code := "B", leader := simLeaderB, relationships := [("A", 1)] })],
    events := [witEvent1, witEvent2, witEvent3], meeting_number := 0 }

def simSession : GameSession :=
  { world := simWorld,
    agents := [("A", { memory := [] }), ("B", { memory := [] })] }

/-- The session table holding the one fixture session. -/
def simSessions : Sessions := [("s1", simSession)]

/-- Evolution responses for the C1 counterexample: the first event
resolves, the others explicitly survive (so no random fallback path is
taken). -/
def c1EvResp : Nat → Option EventAgent.EvolveResp := fun i =>
  if i = 0 then some { resolved := some true }
  else some { resolved := some false }

/-- Generation responses with pairwise-distinct fresh titles. -/
def c1GenResp : Nat → Option EventAgent.GenEvent := fun k =>
  some { eid := "X" ++ toString k, title := "T" ++ toString k,
         description := "d", e_type := "misc" }

/-! ## Association-list lemmas -/

@[simp] theorem alookup_nil {α : Type} (k : String) :
    alookup ([] : List (String × α)) k = none := rfl

theorem alookup_cons {α : Type} (p : String × α) (l : List (String × α))
    (k : String) :
    alookup (p :: l) k = if p.1 = k then some p.2 else alookup l k := rfl

/-- Lookup after assignment: the assigned key reads back the new value and
every other key is untouched. -/
theorem alookup_aset {α : Type} (l : List (String × α)) (k k' : String)
    (v : α) :
    alookup (aset l k v) k' = if k' = k then some v else alookup l k' := by
  induction l with
  | nil =>
    rw [aset, alookup_cons]
    by_cases h : k' = k
    · rw [if_pos h, if_pos h.symm]
    · rw [if_neg h, if_neg (fun hc : k = k' => h hc.symm), alookup_nil]
  | cons p l ih =>
    by_cases hp : p.1 = k
    · rw [aset, if_pos hp, alookup_cons]
      by_cases h : k' = k
      · rw [if_pos h, if_pos h.symm]
      · have hpk' : ¬ (p.1 = k') := by rw [hp]; exact fun hc => h hc.symm
        rw [if_neg h, if_neg (fun hc : k = k' => h hc.symm), alookup_cons,
          if_neg hpk']
    · rw [aset, if_neg hp, alookup_cons]
      by_cases hk' : p.1 = k'
      · have h : ¬ (k' = k) := fun hc => hp (by rw [hk', hc])
        rw [if_pos hk', if_neg h, alookup_cons, if_pos hk']
      · rw [if_neg hk', ih, alookup_cons, if_neg hk']

/-- Assignment to a present key does not change the key list. -/
theorem akeys_aset_of_mem {α : Type} (l : List (String × α)) (k : String)
    (v : α) (h : (alookup l k).isSome) : akeys (aset l k v) = akeys l := by
  induction l with
  | nil => simp [alookup] at h
  | cons p l ih =>
    by_cases hp : p.1 = k
    · simp [aset, hp, akeys]
    · rw [alookup_cons, if_neg hp] at h
      have hrec := ih h
      simp only [akeys, List.map_cons] at hrec ⊢
      rw [aset, if_neg hp, List.map_cons]
      exact congrArg _ hrec

/-- A successful lookup means the key is in the key list. -/
theorem mem_akeys_of_alookup {α : Type} (l : List (String × α)) (k : String)
    (c : α) (h : alookup l k = some c) : k ∈ akeys l := by
  induction l with
  | nil => simp [alookup] at h
  | cons p l ih =>
    rw [alookup_cons] at h
    rw [akeys, List.map_cons]
    by_cases hp : p.1 = k
    · rw [hp]
      exact List.mem_cons_self _ _
    · rw [if_neg hp] at h
      exact List.mem_cons_of_mem _ (ih h)

/-- Lookup succeeds exactly on the keys of the list. -/
theorem alookup_isSome_iff_mem_akeys {α : Type} (l : List (String × α))
    (k : String) : (alookup l k).isSome ↔ k ∈ akeys l := by
  induction l with
  | nil => simp [akeys]
  | cons p l ih =>
    rw [alookup_cons, akeys, List.map_cons]
    by_cases hp : p.1 = k
    · simp [hp]
    · rw [if_neg hp]
      simp only [List.mem_cons]
      rw [ih]
      constructor
      · exact fun h => Or.inr h
      · rintro (h | h)
        · exact absurd h.symm hp
        · exact h

/-- A successful lookup returns an element of the list. -/
theorem alookup_mem {α : Type} (l : List (String × α)) (k : String) (c : α)
    (h : alookup l k = some c) : (k, c) ∈ l := by
  induction l with
  | nil => simp [alookup] at h
  | cons p l ih =>
    rw [alookup_cons] at h
    by_cases hp : p.1 = k
    · rw [if_pos hp] at h
      obtain ⟨p1, p2⟩ := p
      simp only at hp
      injection h with h2
      rw [← hp, ← h2]
      exact List.mem_cons_self _ _
    · rw [if_neg hp] at h
      exact List.mem_cons_of_mem _ (ih h)

/-- Membership in an assigned list: either the new binding or an old one. -/
theorem mem_aset {α : Type} (l : List (String × α)) (k : String) (v : α)
    (q : String × α) (h : q ∈ aset l k v) : q = (k, v) ∨ q ∈ l := by
  induction l with
  | nil => exact Or.inl (by simpa [aset] using h)
  | cons p l ih =>
    by_cases hp : p.1 = k
    · rw [aset, if_pos hp, List.mem_cons] at h
      rcases h with h1 | h1
      · exact Or.inl h1
      · exact Or.inr (List.mem_cons_of_mem _ h1)
    · rw [aset, if_neg hp, List.mem_cons] at h
      rcases h with h1 | h1
      · exact Or.inr (h1 ▸ List.mem_cons_self _ _)
      · rcases ih h1 with h2 | h2
        · exact Or.inl h2
        · exact Or.inr (List.mem_cons_of_mem _ h2)

/-! ## World-state lemmas -/

/-- Relationship lookup only depends on the countries map. -/
theorem relLookup_congr (w w' : WorldState) (h : w'.countries = w.countries)
    (a b : String) : w'.relLookup a b = w.relLookup a b := by
  unfold WorldState.relLookup
  rw [h]

theorem setCountryRel_isSome (w : WorldState) (a b : String) (v : ℚ) :
    (setCountryRel w a b v).isSome = (alookup w.countries a).isSome := by
  unfold setCountryRel
  cases alookup w.countries a <;> rfl

/-- Lookup after a both-ends relationship write. -/
theorem relLookup_setCountryRel (w w' : WorldState) (a b : String) (v : ℚ)
    (h : setCountryRel w a b v = some w') (x y : String) :
    w'.relLookup x y = if x = a ∧ y = b then some v else w.relLookup x y := by
  unfold setCountryRel at h
  split at h
  · exact Option.noConfusion h
  · next ca hla =>
    injection h with h
    subst h
    unfold WorldState.relLookup
    simp only
    rw [alookup_aset]
    by_cases hx : x = a
    · subst hx
      rw [if_pos rfl, hla, Option.some_bind, Option.some_bind]
      simp only
      rw [alookup_aset]
      by_cases hy : y = b <;> simp [hy]
    · rw [if_neg hx, if_neg (fun hc => hx hc.1)]

theorem akeys_setCountryRel (w w' : WorldState) (a b : String) (v : ℚ)
    (h : setCountryRel w a b v = some w') :
    akeys w'.countries = akeys w.countries := by
  unfold setCountryRel at h
  split at h
  · exact Option.noConfusion h
  · next ca hla =>
    injection h with h
    subst h
    exact akeys_aset_of_mem _ _ _ (by rw [hla]; rfl)

theorem events_setCountryRel (w w' : WorldState) (a b : String) (v : ℚ)
    (h : setCountryRel w a b v = some w') : w'.events = w.events := by
  unfold setCountryRel at h
  split at h
  · exact Option.noConfusion h
  · next ca hla =>
    injection h with h
    subst h
    rfl

/-- Overwriting only the leader of a present country leaves every
relationship lookup unchanged. -/
theorem relLookup_aset_leader (w : WorldState) (code : String) (c : Country)
    (l : Leader) (h : alookup w.countries code = some c) (x y : String) :
    WorldState.relLookup
      { w with countries := aset w.countries code ({ c with leader := l }) }
      x y = w.relLookup x y := by
  unfold WorldState.relLookup
  simp only
  rw [alookup_aset]
  by_cases hx : x = code
  · rw [if_pos hx, hx, h, Option.some_bind, Option.some_bind]
  · rw [if_neg hx]

theorem applyStatChanges_relLookup (chs : List (String × StatDelta)) :
    ∀ (w : WorldState) (x y : String),
      (applyStatChanges w chs).relLookup x y = w.relLookup x y := by
  induction chs with
  | nil => intro w x y; rfl
  | cons p rest ih =>
    intro w x y
    obtain ⟨code, ch⟩ := p
    unfold applyStatChanges
    cases hla : alookup w.countries code with
    | none => exact ih w x y
    | some c => rw [ih, relLookup_aset_leader w code c _ hla]

theorem applyStatChanges_akeys (chs : List (String × StatDelta)) :
    ∀ (w : WorldState),
      akeys (applyStatChanges w chs).countries = akeys w.countries := by
  induction chs with
  | nil => intro w; rfl
  | cons p rest ih =>
    intro w
    obtain ⟨code, ch⟩ := p
    unfold applyStatChanges
    cases hla : alookup w.countries code with
    | none => exact ih w
    | some c =>
      rw [ih]
      exact akeys_aset_of_mem _ _ _ (by rw [hla]; rfl)

theorem applyStatChanges_events (chs : List (String × StatDelta)) :
    ∀ (w : WorldState), (applyStatChanges w chs).events = w.events := by
  induction chs with
  | nil => intro w; rfl
  | cons p rest ih =>
    intro w
    obtain ⟨code, ch⟩ := p
    unfold applyStatChanges
    cases hla : alookup w.countries code with
    | none => exact ih w
    | some c => rw [ih]

theorem applyRelChange_akeys (w w' : WorldState) (a b : String) (δ : ℚ)
    (h : applyRelChange w a b δ = some w') :
    akeys w'.countries = akeys w.countries := by
  unfold applyRelChange at h
  split at h
  · injection h with h; rw [← h]
  · split at h
    · injection h with h; rw [← h]
    · split at h
      · exact Option.noConfusion h
      · next w1 hset1 =>
        rw [akeys_setCountryRel w1 w' b a _ h,
          akeys_setCountryRel w w1 a b _ hset1]

theorem applyRelChange_events (w w' : WorldState) (a b : String) (δ : ℚ)
    (h : applyRelChange w a b δ = some w') : w'.events = w.events := by
  unfold applyRelChange at h
  split at h
  · injection h with h; rw [← h]
  · split at h
    · injection h with h; rw [← h]
    · split at h
      · exact Option.noConfusion h
      · next w1 hset1 =>
        rw [events_setCountryRel w1 w' b a _ h,
          events_setCountryRel w w1 a b _ hset1]

/-- The double write of one relationship change keeps symmetry: both
directions receive the same clamped value, and no other pair moves. -/
theorem applyRelChange_symm (w w' : WorldState) (a b : String) (δ : ℚ)
    (hs : SymmRel w) (h : applyRelChange w a b δ = some w') : SymmRel w' := by
  have hak := applyRelChange_akeys w w' a b δ h
  unfold applyRelChange at h
  split at h
  · injection h with h; rw [← h]; exact hs
  · split at h
    · injection h with h; rw [← h]; exact hs
    · split at h
      · exact Option.noConfusion h
      · next w1 hset1 =>
        intro x hx y hy hxy
        rw [hak] at hx hy
        have hc1 := relLookup_setCountryRel w w1 a b _ hset1
        have hc2 := relLookup_setCountryRel w1 w' b a _ h
        rw [hc2, hc2, hc1, hc1]
        by_cases h1 : x = b ∧ y = a
        · rw [if_pos h1]
          by_cases h1r : y = b ∧ x = a
          · rw [if_pos h1r]
          · rw [if_neg h1r, if_pos ⟨h1.2, h1.1⟩]
        · by_cases h2 : x = a ∧ y = b
          · rw [if_neg h1, if_pos h2, if_pos ⟨h2.2, h2.1⟩]
          · rw [if_neg h1, if_neg h2,
              if_neg (fun hc : y = b ∧ x = a => h2 ⟨hc.2, hc.1⟩),
              if_neg (fun hc : y = a ∧ x = b => h1 ⟨hc.2, hc.1⟩)]
            exact hs x hx y hy hxy

/-- Symmetry only depends on the countries map. -/
theorem SymmRel_congr (w w' : WorldState) (h : w'.countries = w.countries)
    (hs : SymmRel w) : SymmRel w' := by
  intro x hx y hy hxy
  rw [relLookup_congr w w' h, relLookup_congr w w' h]
  rw [show akeys w'.countries = akeys w.countries from congrArg akeys h]
    at hx hy
  exact hs x hx y hy hxy

theorem applyStatChanges_symm (chs : List (String × StatDelta))
    (w : WorldState) (hs : SymmRel w) : SymmRel (applyStatChanges w chs) := by
  intro x hx y hy hxy
  rw [applyStatChanges_relLookup, applyStatChanges_relLookup]
  rw [applyStatChanges_akeys] at hx hy
  exact hs x hx y hy hxy

theorem applyRelChanges_events (chs : List (String × String × ℚ)) :
    ∀ (w w' : WorldState), applyRelChanges w chs = some w' →
      w'.events = w.events := by
  induction chs with
  | nil =>
    intro w w' h
    injection h with h
    rw [← h]
  | cons p rest ih =>
    intro w w' h
    obtain ⟨a, b, δ⟩ := p
    unfold applyRelChanges at h
    split at h
    · exact Option.noConfusion h
    · next w1 h1 =>
      rw [ih w1 w' h, applyRelChange_events w w1 a b δ h1]

theorem applyRelChanges_akeys (chs : List (String × String × ℚ)) :
    ∀ (w w' : WorldState), applyRelChanges w chs = some w' →
      akeys w'.countries = akeys w.countries := by
  induction chs with
  | nil =>
    intro w w' h
    injection h with h
    rw [← h]
  | cons p rest ih =>
    intro w w' h
    obtain ⟨a, b, δ⟩ := p
    unfold applyRelChanges at h
    split at h
    · exact Option.noConfusion h
    · next w1 h1 =>
      rw [ih w1 w' h, applyRelChange_akeys w w1 a b δ h1]

theorem applyRelChanges_symm (chs : List (String × String × ℚ)) :
    ∀ (w w' : WorldState), SymmRel w → applyRelChanges w chs = some w' →
      SymmRel w' := by
  induction chs with
  | nil =>
    intro w w' hs h
    injection h with h
    rw [← h]
    exact hs
  | cons p rest ih =>
    intro w w' hs h
    obtain ⟨a, b, δ⟩ := p
    unfold applyRelChanges at h
    split at h
    · exact Option.noConfusion h
    · next w1 h1 => exact ih w1 w' (applyRelChange_symm w w1 a b δ hs h1) h

theorem insertEvents_countries (l : List Event) :
    ∀ (w : WorldState) (n : Nat),
      (insertEvents w n l).1.countries = w.countries := by
  induction l with
  | nil => intro w n; rfl
  | cons e rest ih =>
    intro w n
    unfold insertEvents
    split
    · exact ih w n
    · exact ih _ _

/-- `insertEvents` appends a sublist of the candidates to the events. -/
theorem insertEvents_events (l : List Event) :
    ∀ (w : WorldState) (n : Nat), ∃ sub : List Event,
      (insertEvents w n l).1.events = w.events ++ sub ∧
      sub.length ≤ l.length ∧ ∀ e ∈ sub, e ∈ l := by
  induction l with
  | nil =>
    intro w n
    exact ⟨[], by simp [insertEvents], by simp, by simp⟩
  | cons e rest ih =>
    intro w n
    unfold insertEvents
    split
    · obtain ⟨sub, h1, h2, h3⟩ := ih w n
      exact ⟨sub, h1, Nat.le_succ_of_le h2,
        fun x hx => List.mem_cons_of_mem _ (h3 x hx)⟩
    · obtain ⟨sub, h1, h2, h3⟩ := ih { w with events := w.events ++ [e] } (n + 1)
      refine ⟨e :: sub, ?_, by simpa using Nat.succ_le_succ h2, ?_⟩
      · rw [h1]
        simp
      · intro x hx
        rcases List.mem_cons.mp hx with h | h
        · exact h ▸ List.mem_cons_self _ _
        · exact List.mem_cons_of_mem _ (h3 x h)

theorem time_skip_countries (eresp : Nat → Option EventAgent.EvolveResp)
    (er : Nat → ℚ) (gresp : Nat → Option EventAgent.GenEvent)
    (pick : Nat → String × String) (s : GameSession) :
    (s.time_skip eresp er gresp pick).world.countries = s.world.countries := by
  unfold GameSession.time_skip
  dsimp only
  split
  · rw [insertEvents_countries]
  · rfl

/-- `end_meeting` keeps relationship symmetry (server variant). -/
theorem end_meeting_symm (analyzed : Option Outcomes)
    (decResp : Nat → Option (Option Bool)) (rdec : Nat → ℚ) (r : Nat → ℚ)
    (s : GameSession) (selIds : List String) (res : Outcomes × GameSession)
    (h : s.end_meeting analyzed decResp rdec r selIds = some res)
    (hs : SymmRel s.world) : SymmRel res.2.world := by
  unfold GameSession.end_meeting at h
  dsimp only at h
  split at h
  · exact Option.noConfusion h
  · next w3 hrel =>
    injection h with h
    subst h
    dsimp only
    refine SymmRel_congr w3 _ rfl ?_
    refine applyRelChanges_symm _ _ w3 ?_ hrel
    refine applyStatChanges_symm _ _ ?_
    exact SymmRel_congr s.world _ rfl hs

/-- `time_skip` keeps relationship symmetry (server variant): it never
touches the countries map. -/
theorem time_skip_symm (eresp : Nat → Option EventAgent.EvolveResp)
    (er : Nat → ℚ) (gresp : Nat → Option EventAgent.GenEvent)
    (pick : Nat → String × String) (s : GameSession) (hs : SymmRel s.world) :
    SymmRel (s.time_skip eresp er gresp pick).world :=
  SymmRel_congr s.world _ (time_skip_countries eresp er gresp pick s) hs

theorem applyLeaderDeltas_relLookup (ds : List (String × Engine.MDelta)) :
    ∀ (w w' : WorldState), Engine.applyLeaderDeltas w ds = some w' →
      ∀ x y, w'.relLookup x y = w.relLookup x y := by
  induction ds with
  | nil =>
    intro w w' h x y
    injection h with h
    rw [← h]
  | cons p rest ih =>
    intro w w' h x y
    obtain ⟨k, d⟩ := p
    unfold Engine.applyLeaderDeltas at h
    split at h
    · exact Option.noConfusion h
    · next c hla =>
      split at h
      · exact Option.noConfusion h
      · next l1 hdelta =>
        rw [ih _ w' h, relLookup_aset_leader w k c l1 hla]

theorem applyLeaderDeltas_akeys (ds : List (String × Engine.MDelta)) :
    ∀ (w w' : WorldState), Engine.applyLeaderDeltas w ds = some w' →
      akeys w'.countries = akeys w.countries := by
  induction ds with
  | nil =>
    intro w w' h
    injection h with h
    rw [← h]
  | cons p rest ih =>
    intro w w' h
    obtain ⟨k, d⟩ := p
    unfold Engine.applyLeaderDeltas at h
    split at h
    · exact Option.noConfusion h
    · next c hla =>
      split at h
      · exact Option.noConfusion h
      · next l1 hdelta =>
        rw [ih _ w' h]
        exact akeys_aset_of_mem _ _ _ (by rw [hla]; rfl)

theorem applyLeaderDeltas_symm (ds : List (String × Engine.MDelta))
    (w w' : WorldState) (h : Engine.applyLeaderDeltas w ds = some w')
    (hs : SymmRel w) : SymmRel w' := by
  intro x hx y hy hxy
  rw [applyLeaderDeltas_relLookup ds w w' h, applyLeaderDeltas_relLookup ds w w' h]
  rw [applyLeaderDeltas_akeys ds w w' h] at hx hy
  exact hs x hx y hy hxy

theorem maybe_spawn_countries
    (resp : Nat → Option (Option EventAgent.GenEvent)) (rc : String)
    (w w' : WorldState) (h : Engine.maybe_spawn resp rc w = some w') :
    w'.countries = w.countries := by
  unfold Engine.maybe_spawn at h
  split at h
  · split at h
    · exact Option.noConfusion h
    · injection h with h
      rw [← h]
    · injection h with h
      rw [← h]
  · injection h with h
    rw [← h]

/-- The `Moderator.time_skip` world transformation keeps relationship
symmetry (engine variant). -/
theorem engine_time_skip_symm (eresp : Nat → Option EventAgent.EvolveResp)
    (er : Nat → ℚ) (summ : Option Engine.MSummary)
    (gresp : Nat → Option (Option EventAgent.GenEvent)) (rc : String)
    (w w' : WorldState)
    (h : Engine.time_skip_world eresp er summ gresp rc w = some w')
    (hs : SymmRel w) : SymmRel w' := by
  unfold Engine.time_skip_world at h
  dsimp only at h
  split at h
  · next hsum hds =>
    split at h
    · exact Option.noConfusion h
    · next w2 hld =>
      split at h
      · exact Option.noConfusion h
      · next w3 hrc =>
        refine SymmRel_congr w3 w' (maybe_spawn_countries _ _ _ _ h) ?_
        refine applyRelChanges_symm _ w2 w3 ?_ hrc
        refine applyLeaderDeltas_symm _ _ w2 hld ?_
        exact SymmRel_congr w _ rfl hs
  · exact Option.noConfusion h

/-- One session call keeps relationship symmetry. -/
theorem applyCall_symm (s s' : GameSession) (c : SessionCall)
    (h : applyCall s c = some s') (hs : SymmRel s.world) :
    SymmRel s'.world := by
  cases c with
  | endM a d rd r sel =>
    simp only [applyCall] at h
    cases hm : s.end_meeting a d rd r sel with
    | none => rw [hm] at h; exact Option.noConfusion h
    | some res =>
      rw [hm] at h
      injection h with h
      rw [← h]
      exact end_meeting_symm a d rd r s sel res hm hs
  | tskip er r g p =>
    simp only [applyCall] at h
    injection h with h
    rw [← h]
    exact time_skip_symm er r g p s hs
  | mskip er r summ g rc =>
    simp only [applyCall] at h
    cases hm : Engine.time_skip_world er r summ g rc s.world with
    | none => rw [hm] at h; exact Option.noConfusion h
    | some w1 =>
      rw [hm] at h
      injection h with h
      rw [← h]
      exact engine_time_skip_symm er r summ g rc s.world w1 hm hs

/-! ## Clamp arithmetic lemmas -/

theorem clamp01_bounds (x : ℚ) :
    1 / 10 ≤ max (1 / 10) (min 1 x) ∧ max (1 / 10) (min 1 x) ≤ 1 :=
  ⟨le_max_left _ _, max_le (by norm_num) (min_le_left _ _)⟩

theorem clamp01_high (x : ℚ) (h : 1 < x) : max (1 / 10) (min 1 x) = 1 := by
  rw [min_eq_left h.le]
  exact max_eq_right (by norm_num)

theorem clamp01_low (x : ℚ) (h : x < 1 / 10) :
    max (1 / 10) (min 1 x) = 1 / 10 := by
  rw [min_eq_right (h.le.trans (by norm_num))]
  exact max_eq_left h.le

/-- Every country surviving `applyStatChanges` either kept its old entry or
carries a leader produced by `applyDeltaToLeader`. -/
theorem applyStatChanges_leader_shape (chs : List (String × StatDelta)) :
    ∀ (w : WorldState) (x : String) (c : Country),
      alookup (applyStatChanges w chs).countries x = some c →
      alookup w.countries x = some c ∨
        ∃ (l0 : Leader) (ch : StatDelta),
          c.leader = applyDeltaToLeader l0 ch := by
  induction chs with
  | nil => intro w x c h; exact Or.inl h
  | cons p rest ih =>
    intro w x c h
    obtain ⟨code, ch⟩ := p
    unfold applyStatChanges at h
    revert h
    cases hla : alookup w.countries code with
    | none => intro h; exact ih w x c h
    | some c0 =>
      intro h
      rcases ih _ x c h with h1 | h1
      · rw [alookup_aset] at h1
        by_cases hx : x = code
        · rw [if_pos hx] at h1
          injection h1 with h1
          exact Or.inr ⟨c0.leader, ch, by rw [← h1]⟩
        · rw [if_neg hx] at h1
          exact Or.inl h1
      · exact Or.inr h1

/-! ## Claim C6 -/

/-- C6: every delta applied by `end_meeting` (through
`applyDeltaToLeader`) or by the `Moderator.time_skip` variant (through
`Engine.applyMDelta`) leaves `econ_power` and `war_power` in
`[0.1, 1.0]` and `population` at least 1, and a delta that would cross a
bound produces exactly the boundary value; moreover every leader touched
by the `end_meeting` stat loop went through `applyDeltaToLeader`. -/
theorem C6_stat_clamps (l : Leader) (ch : StatDelta) (d : Engine.MDelta) :
    (1 / 10 ≤ (applyDeltaToLeader l ch).econ_power ∧
      (applyDeltaToLeader l ch).econ_power ≤ 1) ∧
    (1 / 10 ≤ (applyDeltaToLeader l ch).war_power ∧
      (applyDeltaToLeader l ch).war_power ≤ 1) ∧
    (1 ≤ (applyDeltaToLeader l ch).population) ∧
    (1 < l.econ_power + ch.econ.getD 0 →
      (applyDeltaToLeader l ch).econ_power = 1) ∧
    (l.econ_power + ch.econ.getD 0 < 1 / 10 →
      (applyDeltaToLeader l ch).econ_power = 1 / 10) ∧
    (1 < l.war_power + ch.war.getD 0 →
      (applyDeltaToLeader l ch).war_power = 1) ∧
    (l.war_power + ch.war.getD 0 < 1 / 10 →
      (applyDeltaToLeader l ch).war_power = 1 / 10) ∧
    (l.population + ch.pop.getD 0 < 1 →
      (applyDeltaToLeader l ch).population = 1) ∧
    (∀ w x c, alookup (applyStatChanges w [(x, ch)]).countries x = some c →
      alookup w.countries x = some c ∨
        ∃ l0 ch0, c.leader = applyDeltaToLeader l0 ch0) ∧
    (∀ l' : Leader, Engine.applyMDelta l d = some l' →
      (1 / 10 ≤ l'.econ_power ∧ l'.econ_power ≤ 1) ∧
      (1 / 10 ≤ l'.war_power ∧ l'.war_power ≤ 1) ∧ 1 ≤ l'.population) := by
  refine ⟨clamp01_bounds _, clamp01_bounds _, le_max_left _ _,
    fun h => clamp01_high _ h, fun h => clamp01_low _ h,
    fun h => clamp01_high _ h, fun h => clamp01_low _ h,
    fun h => max_eq_left h.le,
    fun w x c h => applyStatChanges_leader_shape [(x, ch)] w x c h,
    ?_⟩
  intro l' h
  unfold Engine.applyMDelta at h
  split at h
  · injection h with h
    rw [← h]
    exact ⟨clamp01_bounds _, clamp01_bounds _, le_max_left _ _⟩
  · exact Option.noConfusion h

/-- Witness for C6 at a concrete leader and a delta crossing every bound:
econ clamps to the upper boundary, war and population to the lower
boundaries. -/
theorem C6_stat_clamps_witness :
    (applyDeltaToLeader witLeaderA witDelta).econ_power = 1 ∧
    (applyDeltaToLeader witLeaderA witDelta).war_power = 1 / 10 ∧
    (applyDeltaToLeader witLeaderA witDelta).population = 1 ∧
    1 / 10 ≤ (applyDeltaToLeader witLeaderA witDelta).econ_power := by
  obtain ⟨h1, h2, h3, h4, h5, h6, h7, h8, h9, h10⟩ :=
    C6_stat_clamps witLeaderA witDelta witMDelta
  refine ⟨h4 ?_, h7 ?_, h8 ?_, h1.1⟩
  · show (1 : ℚ) < 1 / 2 + (1 : ℚ)
    norm_num
  · show (1 / 2 : ℚ) + (-1) < 1 / 10
    norm_num
  · show (5000000 : Int) + (-(10 ^ 9)) < 1
    norm_num

/-! ## Resolution-loop lemmas -/

theorem resolveLoop_length (selIds : List String)
    (decResp : Nat → Option (Option Bool)) (rdec : Nat → ℚ) :
    ∀ (j : Nat) (es : List Event),
      (resolveLoop selIds decResp rdec j es).1.length = es.length := by
  intro j es
  induction es generalizing j with
  | nil => rfl
  | cons e rest ih =>
    unfold resolveLoop
    dsimp only
    split
    · simp [ih]
    · simp [ih]

/-- Each position of the resolution loop output either keeps its event
unchanged or marks it resolved, the latter only for a selected event with
`cycles_alive > 0`. -/
theorem resolveLoop_get (selIds : List String)
    (decResp : Nat → Option (Option Bool)) (rdec : Nat → ℚ) :
    ∀ (es : List Event) (j i : Nat),
      (resolveLoop selIds decResp rdec j es).1.get? i = es.get? i ∨
      ∃ e, es.get? i = some e ∧ selIds.contains e.eid = true ∧
        0 < e.cycles_alive ∧
        (resolveLoop selIds decResp rdec j es).1.get? i =
          some { e with resolved := true } := by
  intro es
  induction es with
  | nil => intro j i; exact Or.inl rfl
  | cons e rest ih =>
    intro j i
    simp only [resolveLoop]
    by_cases hsel : selIds.contains e.eid = true
    · rw [if_pos hsel]
      cases i with
      | zero =>
        by_cases hhit : ResolutionAgent.decide (decResp j) (rdec j) = true ∧
            0 < e.cycles_alive
        · exact Or.inr ⟨e, rfl, hsel, hhit.2, by simp [hhit]⟩
        · exact Or.inl (by simp [hhit])
      | succ i0 =>
        rcases ih (j + 1) i0 with h | h
        · exact Or.inl (by simpa using h)
        · obtain ⟨e0, h1, h2, h3, h4⟩ := h
          exact Or.inr ⟨e0, by simpa using h1, h2, h3, by simpa using h4⟩
    · rw [if_neg hsel]
      cases i with
      | zero => exact Or.inl rfl
      | succ i0 =>
        rcases ih j i0 with h | h
        · exact Or.inl (by simpa using h)
        · obtain ⟨e0, h1, h2, h3, h4⟩ := h
          exact Or.inr ⟨e0, by simpa using h1, h2, h3, by simpa using h4⟩

/-- The events coming out of `end_meeting`: the addressed-marking map
followed by the resolution loop (the stat and relationship phases do not
touch events). -/
theorem end_meeting_events (analyzed : Option Outcomes)
    (decResp : Nat → Option (Option Bool)) (rdec : Nat → ℚ) (r : Nat → ℚ)
    (s : GameSession) (selIds : List String) (res : Outcomes × GameSession)
    (h : s.end_meeting analyzed decResp rdec r selIds = some res) :
    res.2.world.events = (resolveLoop selIds decResp rdec 0
      (s.world.events.map fun e =>
        if selIds.contains e.eid then { e with addressed := true } else e)).1 := by
  unfold GameSession.end_meeting at h
  dsimp only at h
  split at h
  · exact Option.noConfusion h
  · next w3 hrel =>
    injection h with h
    subst h
    dsimp only
    congr 1
    rw [applyRelChanges_events _ _ w3 hrel, applyStatChanges_events]

/-! ## Claim C2 -/

/-- C2: for every session and every finite sequence of `end_meeting` and
`time_skip` calls (with arbitrary collaborator responses), the
relationship mapping stays symmetric: for all distinct country codes `A`
and `B`, `relationships[A][B] == relationships[B][A]` after each call
(every prefix of a call sequence is itself a call sequence; a `none`
result is a call that died on an unhandled exception and produced no
post-state). -/
theorem C2_relationship_symmetry (calls : List SessionCall) :
    ∀ (s s' : GameSession), SymmRel s.world →
      applyCalls s calls = some s' → SymmRel s'.world := by
  induction calls with
  | nil =>
    intro s s' hs h
    injection h with h
    rw [← h]
    exact hs
  | cons c cs ih =>
    intro s s' hs h
    unfold applyCalls at h
    split at h
    · exact Option.noConfusion h
    · next s1 h1 => exact ih s1 s' (applyCall_symm s s1 c h1 hs) h

/-! ## Claim C3 -/

/-- C3: an active event with `cycles_alive == 0` that is selected for a
meeting stays unresolved through `end_meeting`, whatever the Resolution
Decision answers — the `cycles_alive > 0` guard blocks the marking. -/
theorem C3_no_resolution_at_cycle_zero (analyzed : Option Outcomes)
    (decResp : Nat → Option (Option Bool)) (rdec : Nat → ℚ) (r : Nat → ℚ)
    (s : GameSession) (selIds : List String) (res : Outcomes × GameSession)
    (i : Nat) (e : Event)
    (hget : s.world.events.get? i = some e)
    (hsel : selIds.contains e.eid = true)
    (hcy : e.cycles_alive = 0) (hres : e.resolved = false)
    (h : s.end_meeting analyzed decResp rdec r selIds = some res) :
    ∃ e', res.2.world.events.get? i = some e' ∧ e'.resolved = false := by
  have hev := end_meeting_events analyzed decResp rdec r s selIds res h
  have hget1 : (s.world.events.map fun e0 =>
      if selIds.contains e0.eid then { e0 with addressed := true } else e0).get? i
      = some (if selIds.contains e.eid then { e with addressed := true } else e) := by
    rw [List.get?_map, hget]
    rfl
  have hcyc1 : (if selIds.contains e.eid then
      ({ e with addressed := true } : Event) else e).cycles_alive
      = e.cycles_alive := by split <;> rfl
  have hres1 : (if selIds.contains e.eid then
      ({ e with addressed := true } : Event) else e).resolved = e.resolved := by
    split <;> rfl
  rcases resolveLoop_get selIds decResp rdec
      (s.world.events.map fun e0 =>
        if selIds.contains e0.eid then { e0 with addressed := true } else e0)
      0 i with hcase | hcase
  · refine ⟨if selIds.contains e.eid then { e with addressed := true } else e,
      ?_, ?_⟩
    · rw [hev, hcase, hget1]
    · rw [hres1, hres]
  · obtain ⟨e0, h1, h2, h3, h4⟩ := hcase
    rw [hget1] at h1
    injection h1 with h1
    rw [← h1, hcyc1, hcy] at h3
    exact absurd h3 (Nat.lt_irrefl 0)

/-- Witness for C3: selecting the zero-cycle event `E3` with a positive
Resolution Decision still leaves it unresolved. -/
theorem C3_no_resolution_at_cycle_zero_witness :
    ∃ e', witE3Res.2.world.events.get? 2 = some e' ∧ e'.resolved = false :=
  C3_no_resolution_at_cycle_zero (some witOutcomesEmpty)
    (fun _ => some (some true)) (fun _ => 0) (fun _ => 0) witSession ["E3"]
    witE3Res 2 witEvent3 rfl rfl rfl rfl rfl

/-! ## Round-loop lemmas -/

theorem akeys_broadcastToOthers (ags : List (String × AgentState))
    (sp m : String) : akeys (broadcastToOthers ags sp m) = akeys ags := by
  unfold broadcastToOthers akeys
  rw [List.map_map]
  exact List.map_congr_left fun p _ => by by_cases h : p.1 = sp <;> simp [h]

/-- With an always-failing generation oracle, the round loop emits exactly
one canned response per visited code, each keyed to the country leader's
dominant trait. -/
theorem conductRoundLoop_fail (world : WorldState) :
    ∀ (codes : List String) (agents : List (String × AgentState)),
      (∀ c ∈ codes, c ∈ akeys agents) →
      (∀ c ∈ codes, (alookup world.countries c).isSome) →
      (conductRoundLoop (fun _ => none) world codes agents).2.1 =
        codes.map (fallbackRoundResponse world) := by
  intro codes
  induction codes with
  | nil => intro agents h1 h2; rfl
  | cons c rest ih =>
    intro agents h1 h2
    have hc1 : (alookup agents c).isSome :=
      (alookup_isSome_iff_mem_akeys _ _).mpr (h1 c (List.mem_cons_self _ _))
    obtain ⟨ag, hag⟩ := Option.isSome_iff_exists.mp hc1
    obtain ⟨ct, hct⟩ := Option.isSome_iff_exists.mp
      (h2 c (List.mem_cons_self _ _))
    have hld : leaderAt world c = ct.leader := by
      simp only [leaderAt, hct]
    simp only [conductRoundLoop, hag, hct, List.map_cons]
    have h1' : ∀ c0 ∈ rest, c0 ∈ akeys (broadcastToOthers
        (aset agents c (LeaderAgent.speak none ct.leader ag).2) c
        (ct.leader.name ++ " said: " ++
          (LeaderAgent.speak none ct.leader ag).1)) := by
      intro c0 hc0
      rw [akeys_broadcastToOthers, akeys_aset_of_mem _ _ _ hc1]
      exact h1 c0 (List.mem_cons_of_mem _ hc0)
    rw [ih _ h1' (fun c0 hc0 => h2 c0 (List.mem_cons_of_mem _ hc0))]
    unfold fallbackRoundResponse
    rw [hld]
    rfl

/-- Reading every position of a list back with a default re-creates the
list. -/
theorem map_getD_range {α : Type} (l : List α) (d : α) :
    (List.range l.length).map (fun i => l.getD i d) = l := by
  induction l with
  | nil => rfl
  | cons a l ih =>
    rw [List.length_cons, List.range_succ_eq_map, List.map_cons,
      List.map_map]
    rw [show ((fun i => (a :: l).getD i d) ∘ Nat.succ) =
      (fun i => l.getD i d) from rfl, ih]
    rfl

/-- Truncation toward zero does not grow the magnitude. -/
theorem qtrunc_abs_le (q : ℚ) : |(qtrunc q : ℚ)| ≤ |q| := by
  unfold qtrunc
  split
  · next h =>
    calc |((⌊q⌋ : Int) : ℚ)| = ((⌊q⌋ : Int) : ℚ) :=
          abs_of_nonneg (by exact_mod_cast Int.floor_nonneg.mpr h)
      _ ≤ q := Int.floor_le q
      _ ≤ |q| := le_abs_self q
  · next h =>
    push_neg at h
    have hc : (⌈q⌉ : Int) ≤ 0 := Int.ceil_le.mpr (by exact_mod_cast h.le)
    calc |((⌈q⌉ : Int) : ℚ)| = -((⌈q⌉ : Int) : ℚ) :=
          abs_of_nonpos (by exact_mod_cast hc)
      _ ≤ -q := neg_le_neg (Int.le_ceil q)
      _ ≤ |q| := neg_le_abs q

theorem alookup_broadcastToOthers (l : List (String × AgentState))
    (sp m x : String) :
    alookup (broadcastToOthers l sp m) x =
      if x = sp then alookup l x
      else (alookup l x).map
        (fun a => { memory := a.memory ++ [("user", m)] }) := by
  induction l with
  | nil => by_cases h : x = sp <;> simp [broadcastToOthers, h]
  | cons p l ih =>
    unfold broadcastToOthers at ih ⊢
    rw [List.map_cons]
    by_cases hpx : p.1 = x
    · by_cases hpsp : p.1 = sp
      · have hxsp : x = sp := by rw [← hpx, hpsp]
        rw [if_pos hxsp, if_pos hpsp, alookup_cons, if_pos hpx,
          alookup_cons, if_pos hpx]
      · have hxsp : ¬ (x = sp) := fun hc => hpsp (by rw [hpx, hc])
        rw [if_neg hxsp, if_neg hpsp, alookup_cons]
        simp only [hpx, if_pos]
        rw [alookup_cons, if_pos hpx]
        rfl
    · by_cases hpsp : p.1 = sp
      · rw [if_pos hpsp, alookup_cons, if_neg hpx, ih, alookup_cons,
          if_neg hpx]
      · rw [if_neg hpsp, alookup_cons]
        simp only [hpx, if_neg, if_false]
        rw [ih, alookup_cons, if_neg hpx]

/-- Any round loop only ever extends an agent's memory. -/
theorem conductRoundLoop_extend (oracle : String → Option String)
    (world : WorldState) :
    ∀ (codes : List String) (agents : List (String × AgentState))
      (x : String) (ax : AgentState), alookup agents x = some ax →
      ∃ tail, alookup (conductRoundLoop oracle world codes agents).1 x =
        some { memory := ax.memory ++ tail } := by
  intro codes
  induction codes with
  | nil =>
    intro agents x ax hax
    exact ⟨[], by simp [conductRoundLoop, hax]⟩
  | cons c0 rest ih =>
    intro agents x ax hax
    cases halc0 : alookup agents c0 with
    | none =>
      simp only [conductRoundLoop, halc0]
      exact ih agents x ax hax
    | some ag =>
      cases hctc0 : alookup world.countries c0 with
      | none =>
        simp only [conductRoundLoop, halc0, hctc0]
        exact ih agents x ax hax
      | some ct =>
        simp only [conductRoundLoop, halc0, hctc0]
        by_cases hx0 : x = c0
        · subst hx0
          have hag : ag = ax := by
            rw [halc0] at hax
            injection hax
          subst hag
          have hlook2 : alookup (broadcastToOthers
              (aset agents x (LeaderAgent.speak (oracle x) ct.leader ag).2) x
              (ct.leader.name ++ " said: " ++
                (LeaderAgent.speak (oracle x) ct.leader ag).1)) x =
              some (LeaderAgent.speak (oracle x) ct.leader ag).2 := by
            rw [alookup_broadcastToOthers, if_pos rfl, alookup_aset,
              if_pos rfl]
          cases horacle : oracle x with
          | none =>
            rw [horacle] at hlook2
            obtain ⟨tail, htail⟩ := ih _ x _ hlook2
            exact ⟨tail, htail⟩
          | some reply =>
            rw [horacle] at hlook2
            obtain ⟨tail, htail⟩ := ih _ x _ hlook2
            refine ⟨("assistant", reply) :: tail, ?_⟩
            rw [htail]
            simp [LeaderAgent.speak]
        · have hlook2 : alookup (broadcastToOthers
              (aset agents c0 (LeaderAgent.speak (oracle c0) ct.leader ag).2) c0
              (ct.leader.name ++ " said: " ++
                (LeaderAgent.speak (oracle c0) ct.leader ag).1)) x =
              some { memory := ax.memory ++
                [("user", ct.leader.name ++ " said: " ++
                  (LeaderAgent.speak (oracle c0) ct.leader ag).1)] } := by
            rw [alookup_broadcastToOthers, if_neg hx0, alookup_aset,
              if_neg hx0, hax]
            rfl
          obtain ⟨tail, htail⟩ := ih _ x _ hlook2
          refine ⟨("user", ct.leader.name ++ " said: " ++
            (LeaderAgent.speak (oracle c0) ct.leader ag).1) :: tail, ?_⟩
          rw [htail]
          simp

/-- When the oracle fails for agent `x`, the round loop only appends
`"user"`-tagged entries to `x`'s memory: the fallback line is never
recorded as a self-authored turn. -/
theorem conductRoundLoop_user_tail (oracle : String → Option String)
    (world : WorldState) (x : String) (hx : oracle x = none) :
    ∀ (codes : List String) (agents : List (String × AgentState))
      (ax : AgentState), alookup agents x = some ax →
      ∃ tail, alookup (conductRoundLoop oracle world codes agents).1 x =
        some { memory := ax.memory ++ tail } ∧ ∀ q ∈ tail, q.1 = "user" := by
  intro codes
  induction codes with
  | nil =>
    intro agents ax hax
    exact ⟨[], by simp [conductRoundLoop, hax], by simp⟩
  | cons c0 rest ih =>
    intro agents ax hax
    cases halc0 : alookup agents c0 with
    | none =>
      simp only [conductRoundLoop, halc0]
      exact ih agents ax hax
    | some ag =>
      cases hctc0 : alookup world.countries c0 with
      | none =>
        simp only [conductRoundLoop, halc0, hctc0]
        exact ih agents ax hax
      | some ct =>
        simp only [conductRoundLoop, halc0, hctc0]
        by_cases hx0 : x = c0
        · subst hx0
          have hag : ag = ax := by
            rw [halc0] at hax
            injection hax
          subst hag
          have hlook2 : alookup (broadcastToOthers
              (aset agents x (LeaderAgent.speak (oracle x) ct.leader ag).2) x
              (ct.leader.name ++ " said: " ++
                (LeaderAgent.speak (oracle x) ct.leader ag).1)) x =
              some ag := by
            rw [alookup_broadcastToOthers, if_pos rfl, alookup_aset,
              if_pos rfl, hx]
            rfl
          exact ih _ ag hlook2
        · have hlook2 : alookup (broadcastToOthers
              (aset agents c0 (LeaderAgent.speak (oracle c0) ct.leader ag).2) c0
              (ct.leader.name ++ " said: " ++
                (LeaderAgent.speak (oracle c0) ct.leader ag).1)) x =
              some { memory := ax.memory ++
                [("user", ct.leader.name ++ " said: " ++
                  (LeaderAgent.speak (oracle c0) ct.leader ag).1)] } := by
            rw [alookup_broadcastToOthers, if_neg hx0, alookup_aset,
              if_neg hx0, hax]
            rfl
          obtain ⟨tail, htail, huser⟩ := ih _ _ hlook2
          refine ⟨("user", ct.leader.name ++ " said: " ++
            (LeaderAgent.speak (oracle c0) ct.leader ag).1) :: tail, ?_, ?_⟩
          · rw [htail]
            simp
          · intro q hq
            rcases List.mem_cons.mp hq with h | h
            · rw [h]
            · exact huser q h

/-- Once the failed speaker `c` has been processed, every other agent's
memory holds the broadcast `"{name} said: {fallback}"` entry. -/
theorem conductRoundLoop_broadcast (oracle : String → Option String)
    (world : WorldState) (c x : String) (ct : Country)
    (hc : oracle c = none) (hct : alookup world.countries c = some ct)
    (hx : x ≠ c) :
    ∀ (codes : List String) (agents : List (String × AgentState))
      (ax : AgentState), c ∈ codes → (alookup agents c).isSome →
      alookup agents x = some ax →
      ∃ ax', alookup (conductRoundLoop oracle world codes agents).1 x =
        some ax' ∧
        ("user", ct.leader.name ++ " said: " ++
          fallbackLine (dominantTrait ct.leader.traits)) ∈ ax'.memory := by
  intro codes
  induction codes with
  | nil => intro agents ax hmem; exact absurd hmem (by simp)
  | cons c0 rest ih =>
    intro agents ax hmem hcs hax
    by_cases hcc0 : c = c0
    · subst hcc0
      obtain ⟨ag, hag⟩ := Option.isSome_iff_exists.mp hcs
      simp only [conductRoundLoop, hag, hct]
      have hlook2 : alookup (broadcastToOthers
          (aset agents c (LeaderAgent.speak (oracle c) ct.leader ag).2) c
          (ct.leader.name ++ " said: " ++
            (LeaderAgent.speak (oracle c) ct.leader ag).1)) x =
          some { memory := ax.memory ++
            [("user", ct.leader.name ++ " said: " ++
              (LeaderAgent.speak (oracle c) ct.leader ag).1)] } := by
        rw [alookup_broadcastToOthers, if_neg hx, alookup_aset,
          if_neg hx, hax]
        rfl
      have hsp1 : (LeaderAgent.speak (oracle c) ct.leader ag).1 =
          fallbackLine (dominantTrait ct.leader.traits) := by
        rw [hc]
        rfl
      obtain ⟨tail, htail⟩ := conductRoundLoop_extend oracle world rest _ x _
        hlook2
      refine ⟨_, htail, ?_⟩
      show _ ∈ (ax.memory ++
        [("user", ct.leader.name ++ " said: " ++
          (LeaderAgent.speak (oracle c) ct.leader ag).1)]) ++ tail
      rw [hsp1]
      apply List.mem_append_left
      apply List.mem_append_right
      exact List.mem_singleton.mpr rfl
    · cases halc0 : alookup agents c0 with
      | none =>
        simp only [conductRoundLoop, halc0]
        exact ih agents ax (by
          rcases List.mem_cons.mp hmem with h | h
          · exact absurd h hcc0
          · exact h) hcs hax
      | some ag =>
        cases hctc0 : alookup world.countries c0 with
        | none =>
          simp only [conductRoundLoop, halc0, hctc0]
          exact ih agents ax (by
            rcases List.mem_cons.mp hmem with h | h
            · exact absurd h hcc0
            · exact h) hcs hax
        | some ct0 =>
          simp only [conductRoundLoop, halc0, hctc0]
          have hmem' : c ∈ rest := by
            rcases List.mem_cons.mp hmem with h | h
            · exact absurd h hcc0
            · exact h
          have hkeys : akeys (broadcastToOthers
              (aset agents c0 (LeaderAgent.speak (oracle c0) ct0.leader ag).2)
              c0 (ct0.leader.name ++ " said: " ++
                (LeaderAgent.speak (oracle c0) ct0.leader ag).1)) =
              akeys agents := by
            rw [akeys_broadcastToOthers, akeys_aset_of_mem _ _ _
              (by rw [halc0]; rfl)]
          have hcs' : (alookup (broadcastToOthers
              (aset agents c0 (LeaderAgent.speak (oracle c0) ct0.leader ag).2)
              c0 (ct0.leader.name ++ " said: " ++
                (LeaderAgent.speak (oracle c0) ct0.leader ag).1)) c).isSome := by
            rw [alookup_isSome_iff_mem_akeys, hkeys,
              ← alookup_isSome_iff_mem_akeys]
            exact hcs
          by_cases hxc0 : x = c0
          · have hax' : alookup (broadcastToOthers
                (aset agents c0 (LeaderAgent.speak (oracle c0) ct0.leader ag).2)
                c0 (ct0.leader.name ++ " said: " ++
                  (LeaderAgent.speak (oracle c0) ct0.leader ag).1)) x =
                some (LeaderAgent.speak (oracle c0) ct0.leader ag).2 := by
              rw [alookup_broadcastToOthers, if_pos hxc0, alookup_aset,
                if_pos hxc0]
            exact ih _ _ hmem' hcs' hax'
          · have hax' : alookup (broadcastToOthers
                (aset agents c0 (LeaderAgent.speak (oracle c0) ct0.leader ag).2)
                c0 (ct0.leader.name ++ " said: " ++
                  (LeaderAgent.speak (oracle c0) ct0.leader ag).1)) x =
                some { memory := ax.memory ++
                  [("user", ct0.leader.name ++ " said: " ++
                    (LeaderAgent.speak (oracle c0) ct0.leader ag).1)] } := by
              rw [alookup_broadcastToOthers, if_neg hxc0, alookup_aset,
                if_neg hxc0, hax]
              rfl
            exact ih _ _ hmem' hcs' hax'

/-- The transcript lines of the round loop include the failed speaker's
canned utterance. -/
theorem conductRoundLoop_transcript (oracle : String → Option String)
    (world : WorldState) (c : String) (ct : Country)
    (hc : oracle c = none) (hct : alookup world.countries c = some ct) :
    ∀ (codes : List String) (agents : List (String × AgentState)),
      c ∈ codes → (alookup agents c).isSome →
      (ct.leader.name ++ ": " ++
        fallbackLine (dominantTrait ct.leader.traits)) ∈
        (conductRoundLoop oracle world codes agents).2.2 := by
  intro codes
  induction codes with
  | nil => intro agents hmem; exact absurd hmem (by simp)
  | cons c0 rest ih =>
    intro agents hmem hcs
    by_cases hcc0 : c = c0
    · subst hcc0
      obtain ⟨ag, hag⟩ := Option.isSome_iff_exists.mp hcs
      simp only [conductRoundLoop, hag, hct, hc]
      exact List.mem_cons_self _ _
    · have hmem' : c ∈ rest := by
        rcases List.mem_cons.mp hmem with h | h
        · exact absurd h hcc0
        · exact h
      cases halc0 : alookup agents c0 with
      | none =>
        simp only [conductRoundLoop, halc0]
        exact ih agents hmem' hcs
      | some ag =>
        cases hctc0 : alookup world.countries c0 with
        | none =>
          simp only [conductRoundLoop, halc0, hctc0]
          exact ih agents hmem' hcs
        | some ct0 =>
          simp only [conductRoundLoop, halc0, hctc0]
          apply List.mem_cons_of_mem
          apply ih
          · exact hmem'
          · rw [alookup_isSome_iff_mem_akeys, akeys_broadcastToOthers,
              akeys_aset_of_mem _ _ _ (by rw [halc0]; rfl),
              ← alookup_isSome_iff_mem_akeys]
            exact hcs

/-- Lookup through the player-message append map of `conduct_round`. -/
theorem alookup_map_append_user (l : List (String × AgentState))
    (m x : String) :
    alookup (l.map fun p =>
      (p.1, ({ memory := p.2.memory ++ [("user", m)] } : AgentState))) x =
    (alookup l x).map
      (fun a => ({ memory := a.memory ++ [("user", m)] } : AgentState)) := by
  induction l with
  | nil => rfl
  | cons p l ih =>
    rw [List.map_cons, alookup_cons, alookup_cons]
    by_cases hp : p.1 = x
    · simp only [hp, if_pos]
      rfl
    · simp only [hp, if_neg, if_false]
      exact ih

/-! ## Event-lifecycle lemmas -/

/-- `evolve` never touches `cycles_alive`. -/
theorem evolve_cycles (resp : Option EventAgent.EvolveResp) (r : ℚ)
    (e : Event) : (EventAgent.evolve resp r e).cycles_alive =
      e.cycles_alive := by
  cases resp with
  | some d => rfl
  | none =>
    show (if 2 < e.cycles_alive ∧ r < 3 / 10 then
      ({ e with resolved := true } : Event) else e).cycles_alive =
      e.cycles_alive
    split <;> rfl

/-- `evolve` never touches `addressed`. -/
theorem evolve_addressed (resp : Option EventAgent.EvolveResp) (r : ℚ)
    (e : Event) : (EventAgent.evolve resp r e).addressed = e.addressed := by
  cases resp with
  | some d => rfl
  | none =>
    show (if 2 < e.cycles_alive ∧ r < 3 / 10 then
      ({ e with resolved := true } : Event) else e).addressed = e.addressed
    split <;> rfl

/-- Every survivor of the evolve loop is unresolved and aged by exactly
one cycle relative to some original event. -/
theorem evolveLoop_mem (eresp : Nat → Option EventAgent.EvolveResp)
    (er : Nat → ℚ) :
    ∀ (es : List Event) (i : Nat), ∀ e ∈ evolveLoop eresp er i es,
      e.resolved = false ∧ ∃ e0 ∈ es, e.cycles_alive = e0.cycles_alive + 1 := by
  intro es
  induction es with
  | nil => intro i e he; exact absurd he (by simp [evolveLoop])
  | cons e0 rest ih =>
    intro i e he
    unfold evolveLoop at he
    dsimp only at he
    by_cases hres : (EventAgent.evolve (eresp i) (er i)
        { e0 with cycles_alive := e0.cycles_alive + 1 }).resolved = true
    · rw [if_pos hres] at he
      obtain ⟨h1, e1, h2, h3⟩ := ih (i + 1) e he
      exact ⟨h1, e1, List.mem_cons_of_mem _ h2, h3⟩
    · rw [if_neg hres] at he
      rcases List.mem_cons.mp he with h | h
      · subst h
        refine ⟨Bool.not_eq_true _ ▸ (by simpa using hres), e0,
          List.mem_cons_self _ _, ?_⟩
        rw [evolve_cycles]
      · obtain ⟨h1, e1, h2, h3⟩ := ih (i + 1) e h
        exact ⟨h1, e1, List.mem_cons_of_mem _ h2, h3⟩

theorem evolveLoop_length_le (eresp : Nat → Option EventAgent.EvolveResp)
    (er : Nat → ℚ) :
    ∀ (es : List Event) (i : Nat),
      (evolveLoop eresp er i es).length ≤ es.length := by
  intro es
  induction es with
  | nil => intro i; simp [evolveLoop]
  | cons e0 rest ih =>
    intro i
    unfold evolveLoop
    dsimp only
    split
    · exact Nat.le_succ_of_le (ih (i + 1))
    · simpa using Nat.succ_le_succ (ih (i + 1))

/-- Flags of every accepted generation candidate: fresh events start with
zero cycles, unresolved and unaddressed. -/
theorem attemptLoop_flags (resp : Nat → Option EventAgent.GenEvent) :
    ∀ (fuel : Nat) (acc : List Event) (exist : List String),
      (∀ e ∈ acc, e.cycles_alive = 0 ∧ e.resolved = false ∧
        e.addressed = false) →
      ∀ e ∈ EventAgent.attemptLoop resp fuel acc exist,
        e.cycles_alive = 0 ∧ e.resolved = false ∧ e.addressed = false := by
  intro fuel
  induction fuel with
  | zero => intro acc exist hacc e he; exact hacc e he
  | succ fuel ih =>
    intro acc exist hacc e he
    unfold EventAgent.attemptLoop at he
    split at he
    · exact hacc e he
    · split at he
      · split at he
        · exact ih acc exist hacc e he
        · refine ih _ _ ?_ e he
          intro e1 he1
          rcases List.mem_append.mp he1 with h | h
          · exact hacc e1 h
          · rw [List.mem_singleton.mp h]
            exact ⟨rfl, rfl, rfl⟩
      · exact ih acc exist hacc e he

theorem attemptLoop_length (resp : Nat → Option EventAgent.GenEvent) :
    ∀ (fuel : Nat) (acc : List Event) (exist : List String),
      acc.length ≤ EventAgent.MAX_EVENTS →
      (EventAgent.attemptLoop resp fuel acc exist).length ≤
        EventAgent.MAX_EVENTS := by
  intro fuel
  induction fuel with
  | zero => intro acc exist hacc; exact hacc
  | succ fuel ih =>
    intro acc exist hacc
    unfold EventAgent.attemptLoop
    split
    · exact hacc
    · next hfull =>
      split
      · split
        · exact ih acc exist hacc
        · refine ih _ _ ?_
          rw [List.length_append]
          simp only [List.length_singleton]
          have : acc.length < EventAgent.MAX_EVENTS := Nat.lt_of_not_le hfull
          omega
      · exact ih acc exist hacc

theorem fallbackFill_flags (ncur : Nat) (pick : Nat → String × String) :
    ∀ (fuel : Nat) (acc : List Event),
      (∀ e ∈ acc, e.cycles_alive = 0 ∧ e.resolved = false ∧
        e.addressed = false) →
      ∀ e ∈ EventAgent.fallbackFill ncur pick fuel acc,
        e.cycles_alive = 0 ∧ e.resolved = false ∧ e.addressed = false := by
  intro fuel
  induction fuel with
  | zero => intro acc hacc e he; exact hacc e he
  | succ fuel ih =>
    intro acc hacc e he
    unfold EventAgent.fallbackFill at he
    split at he
    · exact hacc e he
    · refine ih _ ?_ e he
      intro e1 he1
      rcases List.mem_append.mp he1 with h | h
      · exact hacc e1 h
      · rw [List.mem_singleton.mp h]
        exact ⟨rfl, rfl, rfl⟩

theorem fallbackFill_length (ncur : Nat) (pick : Nat → String × String) :
    ∀ (fuel : Nat) (acc : List Event),
      acc.length ≤ EventAgent.MAX_EVENTS →
      EventAgent.MAX_EVENTS ≤ acc.length + fuel →
      (EventAgent.fallbackFill ncur pick fuel acc).length =
        EventAgent.MAX_EVENTS := by
  intro fuel
  induction fuel with
  | zero =>
    intro acc h1 h2
    exact Nat.le_antisymm h1 (by simpa using h2)
  | succ fuel ih =>
    intro acc h1 h2
    unfold EventAgent.fallbackFill
    split
    · next hfull => exact Nat.le_antisymm h1 hfull
    · next hfull =>
      refine ih _ ?_ ?_
      · rw [List.length_append]
        simp only [List.length_singleton]
        have : acc.length < EventAgent.MAX_EVENTS := Nat.lt_of_not_le hfull
        omega
      · rw [List.length_append]
        simp only [List.length_singleton]
        omega

/-- `generate_multiple` always returns exactly `MAX_EVENTS` events. -/
theorem generate_multiple_length (resp : Nat → Option EventAgent.GenEvent)
    (pick : Nat → String × String) (w : WorldState) :
    (EventAgent.generate_multiple resp pick w).length =
      EventAgent.MAX_EVENTS := by
  unfold EventAgent.generate_multiple
  exact fallbackFill_length _ _ _ _
    (attemptLoop_length resp 5 [] _ (by simp [EventAgent.MAX_EVENTS]))
    (by
      have := attemptLoop_length resp 5 []
        (w.events.map fun e => strLower e.title)
        (by simp [EventAgent.MAX_EVENTS])
      omega)

theorem generate_multiple_flags (resp : Nat → Option EventAgent.GenEvent)
    (pick : Nat → String × String) (w : WorldState) :
    ∀ e ∈ EventAgent.generate_multiple resp pick w,
      e.cycles_alive = 0 ∧ e.resolved = false ∧ e.addressed = false := by
  unfold EventAgent.generate_multiple
  exact fallbackFill_flags _ _ _ _
    (attemptLoop_flags resp 5 [] _ (by simp))

/-! ## World-generation lemmas -/

/-- Distinct indices below 26 yield distinct one-letter country codes. -/
theorem mkCode_inj : ∀ i < 26, ∀ j < 26, mkCode i = mkCode j → i = j := by
  decide

theorem worldCodes_getD (n i : Nat) (hi : i < n) :
    (worldCodes n).getD i "" = mkCode i := by
  unfold worldCodes
  simp [List.getD, List.getElem?_map, List.getElem?_range hi]

/-- Looking a code up in a keyed-by-code map built over index list `l`. -/
theorem alookup_map_mkCode (f : Nat → Country) :
    ∀ (l : List Nat), (∀ i ∈ l, i < 26) → ∀ x, x < 26 →
      alookup (l.map fun i => (mkCode i, f i)) (mkCode x) =
        if x ∈ l then some (f x) else none := by
  intro l
  induction l with
  | nil => intro hb x hx; simp
  | cons i l ih =>
    intro hb x hx
    rw [List.map_cons, alookup_cons]
    by_cases hix : i = x
    · subst hix
      simp
    · have hcode : ¬ ((mkCode i, f i).1 = mkCode x) := fun hc =>
        hix (mkCode_inj i (hb i (List.mem_cons_self _ _)) x hx hc)
      rw [if_neg hcode,
        ih (fun j hj => hb j (List.mem_cons_of_mem _ hj)) x hx]
      by_cases hmem : x ∈ l
      · rw [if_pos hmem, if_pos (List.mem_cons_of_mem _ hmem)]
      · rw [if_neg hmem, if_neg (by
          intro hc
          rcases List.mem_cons.mp hc with h | h
          · exact hix h.symm
          · exact hmem h)]

theorem pairList_mem (n : Nat) (i j : Nat) :
    (i, j) ∈ pairList n ↔ i < j ∧ j < n := by
  unfold pairList
  simp only [List.mem_flatMap, List.mem_map, List.mem_filter,
    List.mem_range, decide_eq_true_eq, Prod.mk.injEq]
  constructor
  · rintro ⟨a, ha, b, ⟨hbn, hab⟩, h1, h2⟩
    subst h1
    subst h2
    exact ⟨hab, hbn⟩
  · rintro ⟨hij, hjn⟩
    exact ⟨i, lt_trans hij hjn, j, ⟨hjn, hij⟩, rfl, rfl⟩

/-- All country codes below `n` resolve in the world. -/
def CodesPresent (n : Nat) (w : WorldState) : Prop :=
  ∀ i, i < n → (alookup w.countries (mkCode i)).isSome

/-- The two-sided relationship write of `init_world`, characterized when
both countries exist. -/
theorem relLookup_setRelPair (w : WorldState) (a b : String) (v : ℚ)
    (ha : (alookup w.countries a).isSome)
    (hb : (alookup w.countries b).isSome) (x y : String) :
    (setRelPair w a b v).relLookup x y =
      if x = b ∧ y = a then some v
      else if x = a ∧ y = b then some v
      else w.relLookup x y := by
  obtain ⟨w1, hw1⟩ := Option.isSome_iff_exists.mp
    (by rw [setCountryRel_isSome]; exact ha :
      (setCountryRel w a b v).isSome)
  have hb1 : (alookup w1.countries b).isSome := by
    rw [alookup_isSome_iff_mem_akeys, akeys_setCountryRel w w1 a b v hw1,
      ← alookup_isSome_iff_mem_akeys]
    exact hb
  obtain ⟨w2, hw2⟩ := Option.isSome_iff_exists.mp
    (by rw [setCountryRel_isSome]; exact hb1 :
      (setCountryRel w1 b a v).isSome)
  have hres : setRelPair w a b v = w2 := by
    simp only [setRelPair, hw1, hw2]
  rw [hres, relLookup_setCountryRel w1 w2 b a v hw2 x y,
    relLookup_setCountryRel w w1 a b v hw1 x y]

theorem akeys_setRelPair (w : WorldState) (a b : String) (v : ℚ)
    (ha : (alookup w.countries a).isSome)
    (hb : (alookup w.countries b).isSome) :
    akeys (setRelPair w a b v).countries = akeys w.countries := by
  obtain ⟨w1, hw1⟩ := Option.isSome_iff_exists.mp
    (by rw [setCountryRel_isSome]; exact ha :
      (setCountryRel w a b v).isSome)
  have hb1 : (alookup w1.countries b).isSome := by
    rw [alookup_isSome_iff_mem_akeys, akeys_setCountryRel w w1 a b v hw1,
      ← alookup_isSome_iff_mem_akeys]
    exact hb
  obtain ⟨w2, hw2⟩ := Option.isSome_iff_exists.mp
    (by rw [setCountryRel_isSome]; exact hb1 :
      (setCountryRel w1 b a v).isSome)
  have hres : setRelPair w a b v = w2 := by
    simp only [setRelPair, hw1, hw2]
  rw [hres, akeys_setCountryRel w1 w2 b a v hw2,
    akeys_setCountryRel w w1 a b v hw1]

theorem setCountryRel_leader_mem (w w' : WorldState) (a b : String) (v : ℚ)
    (h : setCountryRel w a b v = some w') :
    ∀ p ∈ w'.countries, ∃ q ∈ w.countries,
      p.1 = q.1 ∧ p.2.leader = q.2.leader := by
  unfold setCountryRel at h
  split at h
  · exact Option.noConfusion h
  · next ca hla =>
    injection h with h
    subst h
    intro p hp
    rcases mem_aset _ _ _ _ hp with h | h
    · exact ⟨(a, ca), alookup_mem _ _ _ hla, by rw [h], by rw [h]⟩
    · exact ⟨p, h, rfl, rfl⟩

theorem setRelPair_leader_mem (w : WorldState) (a b : String) (v : ℚ) :
    ∀ p ∈ (setRelPair w a b v).countries, ∃ q ∈ w.countries,
      p.1 = q.1 ∧ p.2.leader = q.2.leader := by
  unfold setRelPair
  split
  · exact fun p hp => ⟨p, hp, rfl, rfl⟩
  · next w1 hw1 =>
    split
    · next hw2 =>
      exact setCountryRel_leader_mem w w1 a b v hw1
    · next w2 hw2 =>
      intro p hp
      obtain ⟨q1, hq1, hk1, hl1⟩ := setCountryRel_leader_mem w1 w2 b a v hw2
        p hp
      obtain ⟨q, hq, hk, hl⟩ := setCountryRel_leader_mem w w1 a b v hw1
        q1 hq1
      exact ⟨q, hq, hk1.trans hk, hl1.trans hl⟩

/-- The relationship fold of `init_world`: all keys, presence and leaders
carried through, and the final lookup table. -/
theorem foldRel_akeys (n : Nat) (rw0 : Nat → Nat → ℚ) :
    ∀ (ps : List (Nat × Nat)) (w : WorldState),
      (∀ p ∈ ps, p.1 < n ∧ p.2 < n) → CodesPresent n w →
      akeys ((ps.foldl (fun w p => setRelPair w ((worldCodes n).getD p.1 "")
        ((worldCodes n).getD p.2 "") (rw0 p.1 p.2)) w)).countries =
        akeys w.countries := by
  intro ps
  induction ps with
  | nil => intro w hb hp; rfl
  | cons p ps ih =>
    intro w hb hp
    obtain ⟨a, b⟩ := p
    obtain ⟨han, hbn⟩ := hb (a, b) (List.mem_cons_self _ _)
    rw [List.foldl_cons]
    have ha : (alookup w.countries ((worldCodes n).getD a "")).isSome := by
      rw [worldCodes_getD n a han]
      exact hp a han
    have hbp : (alookup w.countries ((worldCodes n).getD b "")).isSome := by
      rw [worldCodes_getD n b hbn]
      exact hp b hbn
    have hak := akeys_setRelPair w _ _ (rw0 a b) ha hbp
    rw [ih _ (fun q hq => hb q (List.mem_cons_of_mem _ hq)) (by
      intro i hi
      rw [alookup_isSome_iff_mem_akeys, hak,
        ← alookup_isSome_iff_mem_akeys]
      exact hp i hi), hak]

theorem foldRel_leader_mem (n : Nat) (rw0 : Nat → Nat → ℚ) :
    ∀ (ps : List (Nat × Nat)) (w : WorldState),
      ∀ p ∈ ((ps.foldl (fun w q => setRelPair w ((worldCodes n).getD q.1 "")
        ((worldCodes n).getD q.2 "") (rw0 q.1 q.2)) w)).countries,
      ∃ q ∈ w.countries, p.1 = q.1 ∧ p.2.leader = q.2.leader := by
  intro ps
  induction ps with
  | nil => exact fun w p hp => ⟨p, hp, rfl, rfl⟩
  | cons q0 ps ih =>
    intro w p hp
    rw [List.foldl_cons] at hp
    obtain ⟨q1, hq1, hk1, hl1⟩ := ih _ p hp
    obtain ⟨q, hq, hk, hl⟩ := setRelPair_leader_mem w _ _ _ q1 hq1
    exact ⟨q, hq, hk1.trans hk, hl1.trans hl⟩

/-- The decisive lookup characterization of the relationship fold. -/
theorem foldRel_lookup (n : Nat) (hn : n ≤ 26) (rw0 : Nat → Nat → ℚ) :
    ∀ (ps : List (Nat × Nat)) (w : WorldState),
      (∀ p ∈ ps, p.1 < n ∧ p.2 < n ∧ p.1 < p.2) → CodesPresent n w →
      ∀ x y, x < n → y < n →
        ((ps.foldl (fun w p => setRelPair w ((worldCodes n).getD p.1 "")
          ((worldCodes n).getD p.2 "") (rw0 p.1 p.2)) w)).relLookup
          (mkCode x) (mkCode y) =
        if (x, y) ∈ ps then some (rw0 x y)
        else if (y, x) ∈ ps then some (rw0 y x)
        else w.relLookup (mkCode x) (mkCode y) := by
  intro ps
  induction ps with
  | nil =>
    intro w hb hp x y hx hy
    simp
  | cons p ps ih =>
    intro w hb hp x y hx hy
    obtain ⟨a, b⟩ := p
    obtain ⟨han, hbn, hab⟩ := hb (a, b) (List.mem_cons_self _ _)
    have hcode : ∀ u u', u < n → u' < n → (mkCode u = mkCode u' ↔ u = u') :=
      fun u u' hu hu' =>
        ⟨fun h => mkCode_inj u (lt_of_lt_of_le hu hn) u'
          (lt_of_lt_of_le hu' hn) h, fun h => h ▸ rfl⟩
    have ha : (alookup w.countries ((worldCodes n).getD a "")).isSome := by
      rw [worldCodes_getD n a han]
      exact hp a han
    have hbp : (alookup w.countries ((worldCodes n).getD b "")).isSome := by
      rw [worldCodes_getD n b hbn]
      exact hp b hbn
    rw [List.foldl_cons]
    have hpres : CodesPresent n (setRelPair w ((worldCodes n).getD a "")
        ((worldCodes n).getD b "") (rw0 a b)) := by
      intro i hi
      rw [alookup_isSome_iff_mem_akeys,
        akeys_setRelPair w _ _ (rw0 a b) ha hbp,
        ← alookup_isSome_iff_mem_akeys]
      exact hp i hi
    rw [ih _ (fun q hq => hb q (List.mem_cons_of_mem _ hq)) hpres x y hx hy]
    by_cases h1 : (x, y) ∈ ps
    · rw [if_pos h1, if_pos (List.mem_cons_of_mem _ h1)]
    · rw [if_neg h1]
      by_cases h2 : (y, x) ∈ ps
      · have hyx : y < x := ((hb (y, x) (List.mem_cons_of_mem _ h2)).2.2)
        rw [if_pos h2, if_neg (by
          intro hc
          rcases List.mem_cons.mp hc with h | h
          · have hxa : x = a := (Prod.mk.injEq _ _ _ _).mp h |>.1
            have hyb : y = b := (Prod.mk.injEq _ _ _ _).mp h |>.2
            omega
          · exact h1 h), if_pos (List.mem_cons_of_mem _ h2)]
      · rw [if_neg h2,
          relLookup_setRelPair w _ _ (rw0 a b) ha hbp,
          worldCodes_getD n a han, worldCodes_getD n b hbn]
        by_cases hA : x = a ∧ y = b
        · obtain ⟨hxa, hyb⟩ := hA
          rw [if_neg (by
              rintro ⟨hc, -⟩
              have := (hcode x b hx hbn).mp hc
              omega),
            if_pos ⟨(hcode x a hx han).mpr hxa, (hcode y b hy hbn).mpr hyb⟩,
            if_pos (List.mem_cons.mpr (Or.inl (by rw [hxa, hyb]))),
            hxa, hyb]
        · by_cases hB : x = b ∧ y = a
          · obtain ⟨hxb, hya⟩ := hB
            rw [if_pos ⟨(hcode x b hx hbn).mpr hxb,
                (hcode y a hy han).mpr hya⟩,
              if_neg (by
                intro hc
                rcases List.mem_cons.mp hc with h | h
                · injection h with h3 h4
                  omega
                · exact h1 h),
              if_pos (List.mem_cons.mpr (Or.inl (by rw [hya, hxb]))),
              hya, hxb]
          · rw [if_neg (by
                rintro ⟨hc1, hc2⟩
                exact hB ⟨(hcode x b hx hbn).mp hc1,
                  (hcode y a hy han).mp hc2⟩),
              if_neg (by
                rintro ⟨hc1, hc2⟩
                exact hA ⟨(hcode x a hx han).mp hc1,
                  (hcode y b hy hbn).mp hc2⟩),
              if_neg (by
                intro hc
                rcases List.mem_cons.mp hc with h | h
                · injection h with h3 h4
                  exact hA ⟨h3, h4⟩
                · exact h1 h),
              if_neg (by
                intro hc
                rcases List.mem_cons.mp hc with h | h
                · injection h with h3 h4
                  exact hB ⟨h4, h3⟩
                · exact h2 h)]

theorem init_world_eq_fold (n : Nat) (tv : Nat → Nat → ℚ) (ag : Nat → Nat)
    (ev wv : Nat → ℚ) (pk : Nat → Nat) (bio : Nat → Option String)
    (rw0 : Nat → Nat → ℚ) :
    init_world n tv ag ev wv pk bio rw0 =
      (pairList n).foldl (fun w p => setRelPair w ((worldCodes n).getD p.1 "")
        ((worldCodes n).getD p.2 "") (rw0 p.1 p.2))
        (initBase n tv ag ev wv pk bio) := rfl

theorem initBase_alookup (n : Nat) (hn : n ≤ 26) (tv : Nat → Nat → ℚ)
    (ag : Nat → Nat) (ev wv : Nat → ℚ) (pk : Nat → Nat)
    (bio : Nat → Option String) (x : Nat) (hx : x < n) :
    alookup (initBase n tv ag ev wv pk bio).countries (mkCode x) =
      some (initCountry tv ag ev wv pk bio x) := by
  show alookup ((List.range n).map fun i =>
      (mkCode i, initCountry tv ag ev wv pk bio i)) (mkCode x) =
    some (initCountry tv ag ev wv pk bio x)
  rw [alookup_map_mkCode (initCountry tv ag ev wv pk bio) (List.range n)
    (fun i hi => lt_of_lt_of_le (List.mem_range.mp hi) hn) x
    (lt_of_lt_of_le hx hn), if_pos (List.mem_range.mpr hx)]

theorem initBase_codesPresent (n : Nat) (hn : n ≤ 26) (tv : Nat → Nat → ℚ)
    (ag : Nat → Nat) (ev wv : Nat → ℚ) (pk : Nat → Nat)
    (bio : Nat → Option String) :
    CodesPresent n (initBase n tv ag ev wv pk bio) := by
  intro i hi
  rw [initBase_alookup n hn tv ag ev wv pk bio i hi]
  rfl

theorem initBase_akeys (n : Nat) (tv : Nat → Nat → ℚ) (ag : Nat → Nat)
    (ev wv : Nat → ℚ) (pk : Nat → Nat) (bio : Nat → Option String) :
    akeys (initBase n tv ag ev wv pk bio).countries = worldCodes n := by
  show akeys ((List.range n).map fun i =>
      (mkCode i, initCountry tv ag ev wv pk bio i)) = worldCodes n
  unfold akeys worldCodes
  rw [List.map_map]
  rfl

/-- Before the relationship loops run, no lookup succeeds: every
relationships dict starts empty. -/
theorem initBase_relLookup (n : Nat) (tv : Nat → Nat → ℚ) (ag : Nat → Nat)
    (ev wv : Nat → ℚ) (pk : Nat → Nat) (bio : Nat → Option String)
    (x y : String) :
    (initBase n tv ag ev wv pk bio).relLookup x y = none := by
  unfold WorldState.relLookup
  cases hc : alookup (initBase n tv ag ev wv pk bio).countries x with
  | none => rfl
  | some c =>
    show alookup c.relationships y = none
    have hmem := alookup_mem _ _ _ hc
    obtain ⟨i, hi, hqi⟩ := List.mem_map.mp (show (x, c) ∈
      (List.range n).map (fun i =>
        (mkCode i, initCountry tv ag ev wv pk bio i)) from hmem)
    injection hqi with h1 h2
    rw [← h2]
    rfl

/-! ## Claim C8 -/

/-- C8: after every `time_skip` no remaining event is resolved, every
remaining event's `addressed` flag is false, the final pool is the
evolved survivors (each aged by exactly one cycle relative to an
original event) followed by freshly spawned events with zero cycles.  -/
theorem C8_time_skip_postconditions
    (eresp : Nat → Option EventAgent.EvolveResp) (er : Nat → ℚ)
    (gresp : Nat → Option EventAgent.GenEvent)
    (pick : Nat → String × String) (s : GameSession) :
    (∀ e ∈ (s.time_skip eresp er gresp pick).world.events,
      e.resolved = false ∧ e.addressed = false) ∧
    (∃ news, (s.time_skip eresp er gresp pick).world.events =
      (evolveLoop eresp er 0 s.world.events).map
        (fun e => { e with addressed := false }) ++ news ∧
      ∀ e ∈ news, e.cycles_alive = 0) ∧
    (∀ e ∈ evolveLoop eresp er 0 s.world.events,
      ∃ e0 ∈ s.world.events, e.cycles_alive = e0.cycles_alive + 1) := by
  have hsurv := evolveLoop_mem eresp er s.world.events 0
  refine ⟨?_, ?_, fun e he => (hsurv e he).2⟩
  · intro e he
    unfold GameSession.time_skip at he
    dsimp only at he
    revert he
    split
    · next hlt =>
      obtain ⟨sub, hsub, hle, hmem⟩ := insertEvents_events
        (EventAgent.generate_multiple gresp pick
          { s.world with events := evolveLoop eresp er 0 s.world.events })
        { s.world with events := evolveLoop eresp er 0 s.world.events } 0
      intro he
      rw [hsub] at he
      rw [List.map_append] at he
      rcases List.mem_append.mp he with h | h
      · obtain ⟨e1, he1, hee⟩ := List.mem_map.mp h
        exact ⟨by rw [← hee]; exact (hsurv e1 he1).1, by rw [← hee]⟩
      · obtain ⟨e1, he1, hee⟩ := List.mem_map.mp h
        refine ⟨?_, by rw [← hee]⟩
        rw [← hee]
        exact (generate_multiple_flags gresp pick _ e1 (hmem e1 he1)).2.1
    · intro he
      obtain ⟨e1, he1, hee⟩ := List.mem_map.mp he
      exact ⟨by rw [← hee]; exact (hsurv e1 he1).1, by rw [← hee]⟩
  · unfold GameSession.time_skip
    dsimp only
    split
    · next hlt =>
      obtain ⟨sub, hsub, hle, hmem⟩ := insertEvents_events
        (EventAgent.generate_multiple gresp pick
          { s.world with events := evolveLoop eresp er 0 s.world.events })
        { s.world with events := evolveLoop eresp er 0 s.world.events } 0
      refine ⟨sub.map (fun e => { e with addressed := false }), ?_, ?_⟩
      · rw [hsub, List.map_append]
      · intro e he
        obtain ⟨e1, he1, hee⟩ := List.mem_map.mp he
        rw [← hee]
        exact (generate_multiple_flags gresp pick _ e1 (hmem e1 he1)).1
    · exact ⟨[], by rw [List.append_nil], by simp⟩

/-! ## Claim C1 -/

/-- C1 counterexample: starting `time_skip` from three active events of
which exactly one resolves, generation is invoked (pool 2 < 3) and the
three freshly titled events are all appended — the pool ends with five
events, exceeding `MAX_EVENTS = 3` and not equal to it. -/
theorem C1_pool_exceeds_max_counterexample :
    (simSession.time_skip c1EvResp (fun _ => 1) c1GenResp
      (fun _ => ("A", "Minor Incident"))).world.events.length = 5 ∧
    EventAgent.MAX_EVENTS < 5 :=
  ⟨by decide, by decide⟩

/-- C1 (amended): `generate_multiple` always returns exactly
`MAX_EVENTS` candidate events; the title-filtered insertion therefore
grows the pool by at most `MAX_EVENTS` per call — so `time_skip` keeps
the pool within the old size plus `MAX_EVENTS` (it can reach 5), and an
initial spawn into an empty pool stays within `MAX_EVENTS` — but the
pool is not in general capped at, nor topped up to, exactly
`MAX_EVENTS`. -/
theorem C1_pool_size_amended (resp : Nat → Option EventAgent.GenEvent)
    (pick : Nat → String × String) (w : WorldState)
    (eresp : Nat → Option EventAgent.EvolveResp) (er : Nat → ℚ)
    (gresp : Nat → Option EventAgent.GenEvent)
    (pick2 : Nat → String × String) (s s0 : GameSession)
    (gresp0 : Nat → Option EventAgent.GenEvent)
    (pick0 : Nat → String × String) :
    (EventAgent.generate_multiple resp pick w).length =
      EventAgent.MAX_EVENTS ∧
    (s.time_skip eresp er gresp pick2).world.events.length ≤
      s.world.events.length + EventAgent.MAX_EVENTS ∧
    (s0.world.events = [] →
      (s0.generate_initial_events gresp0 pick0).world.events.length ≤
        EventAgent.MAX_EVENTS) := by
  refine ⟨generate_multiple_length resp pick w, ?_, ?_⟩
  · unfold GameSession.time_skip
    dsimp only
    split
    · next hlt =>
      obtain ⟨sub, hsub, hle, hmem⟩ := insertEvents_events
        (EventAgent.generate_multiple gresp pick2
          { s.world with events := evolveLoop eresp er 0 s.world.events })
        { s.world with events := evolveLoop eresp er 0 s.world.events } 0
      rw [List.length_map, hsub, List.length_append]
      have hw1 : ({ s.world with
          events := evolveLoop eresp er 0 s.world.events } :
            WorldState).events = evolveLoop eresp er 0 s.world.events := rfl
      rw [hw1]
      have h1 := evolveLoop_length_le eresp er s.world.events 0
      have h2 := generate_multiple_length gresp pick2
        { s.world with events := evolveLoop eresp er 0 s.world.events }
      omega
    · rw [List.length_map]
      have hw1 : ({ s.world with
          events := evolveLoop eresp er 0 s.world.events } :
            WorldState).events = evolveLoop eresp er 0 s.world.events := rfl
      rw [hw1]
      have h1 := evolveLoop_length_le eresp er s.world.events 0
      omega
  · intro hempty
    unfold GameSession.generate_initial_events
    dsimp only
    obtain ⟨sub, hsub, hle, hmem⟩ := insertEvents_events
      (EventAgent.generate_multiple gresp0 pick0 s0.world) s0.world 0
    rw [hsub, List.length_append, hempty]
    have h2 := generate_multiple_length gresp0 pick0 s0.world
    simp only [List.length_nil]
    omega

/-- Witness for C1 (amended) at an empty-pool session: the initial spawn
stays within the maximum. -/
theorem C1_pool_size_amended_witness :
    (({ world := { countries := [], events := [], meeting_number := 0 },
        agents := [] } : GameSession).generate_initial_events c1GenResp
          (fun _ => ("A", "Minor Incident"))).world.events.length ≤
      EventAgent.MAX_EVENTS :=
  (C1_pool_size_amended c1GenResp (fun _ => ("A", "Minor Incident"))
    { countries := [], events := [], meeting_number := 0 }
    c1EvResp (fun _ => 1) c1GenResp (fun _ => ("A", "Minor Incident"))
    simSession
    { world := { countries := [], events := [], meeting_number := 0 },
      agents := [] }
    c1GenResp (fun _ => ("A", "Minor Incident"))).2.2 rfl

/-! ## Claim C10 -/

/-- C10: when generation fails for speaker `c` inside `speak`, the
returned fallback line is not appended to `c`'s own memory (`speak`
leaves the state untouched, and the whole round only ever adds
`"user"`-tagged entries to `c`), yet `conduct_round` still broadcasts the
fallback as a `"{name} said: ..."` entry into every other agent's memory
and into the meeting transcript — leaving the speaker's self-memory and
the peers' memories inconsistent with each other. -/
theorem C10_failed_speak_memory_asymmetry (oracle : String → Option String)
    (s : GameSession) (selIds : List String) (playerMsg : String)
    (c x : String) (ac ax : AgentState) (ct : Country)
    (hc : oracle c = none)
    (hag : alookup s.agents c = some ac)
    (hct : alookup s.world.countries c = some ct)
    (hx : x ≠ c) (hax : alookup s.agents x = some ax) :
    ((LeaderAgent.speak none ct.leader ac).2 = ac ∧
      (LeaderAgent.speak none ct.leader ac).1 =
        fallbackLine (dominantTrait ct.leader.traits)) ∧
    (∃ tail, alookup (s.conduct_round oracle selIds playerMsg).2.agents c =
      some { memory := ac.memory ++ tail } ∧ ∀ q ∈ tail, q.1 = "user") ∧
    (∃ ax', alookup (s.conduct_round oracle selIds playerMsg).2.agents x =
      some ax' ∧
      ("user", ct.leader.name ++ " said: " ++
        fallbackLine (dominantTrait ct.leader.traits)) ∈ ax'.memory) ∧
    ((ct.leader.name ++ ": " ++
      fallbackLine (dominantTrait ct.leader.traits)) ∈
      (s.conduct_round oracle selIds playerMsg).2.transcript) := by
  have hmemc : c ∈ akeys s.agents := mem_akeys_of_alookup _ _ _ hag
  have hcs : (alookup s.agents c).isSome := by rw [hag]; rfl
  obtain ⟨tailc, htailc, huserc⟩ :=
    conductRoundLoop_user_tail oracle s.world c hc (akeys s.agents)
      s.agents ac hag
  obtain ⟨ax', hax', hmemx⟩ :=
    conductRoundLoop_broadcast oracle s.world c x ct hc hct hx
      (akeys s.agents) s.agents ax hmemc hcs hax
  have htr := conductRoundLoop_transcript oracle s.world c ct hc hct
    (akeys s.agents) s.agents hmemc hcs
  refine ⟨⟨rfl, rfl⟩, ?_, ?_, ?_⟩ <;>
    unfold GameSession.conduct_round <;> dsimp only <;> split
  · dsimp only
    refine ⟨tailc ++ [("user", playerMsg)], ?_, ?_⟩
    · rw [alookup_map_append_user, htailc]
      simp
    · intro q hq
      rcases List.mem_append.mp hq with h | h
      · exact huserc q h
      · rw [List.mem_singleton.mp h]
  · exact ⟨tailc, htailc, huserc⟩
  · dsimp only
    refine ⟨{ memory := ax'.memory ++ [("user", playerMsg)] }, ?_, ?_⟩
    · rw [alookup_map_append_user, hax']
      rfl
    · exact List.mem_append_left _ hmemx
  · exact ⟨ax', hax', hmemx⟩
  · dsimp only
    exact List.mem_append_left _ (List.mem_append_right _ htr)
  · exact List.mem_append_right _ htr

/-- Witness for C10 at the concrete two-agent session: speaker `A`
fails, `B` receives the broadcast. -/
theorem C10_failed_speak_memory_asymmetry_witness :
    (∃ tail, alookup
      ((simSession.conduct_round (fun _ => none) [] "P").2.agents) "A" =
        some { memory := ([] : List (String × String)) ++ tail } ∧
      ∀ q ∈ tail, q.1 = "user") ∧
    (∃ ax', alookup
      ((simSession.conduct_round (fun _ => none) [] "P").2.agents) "B" =
        some ax' ∧
      ("user", "Leader_A said: " ++
        fallbackLine (dominantTrait simLeaderA.traits)) ∈ ax'.memory) := by
  have h := C10_failed_speak_memory_asymmetry (fun _ => none) simSession []
    "P" "A" "B" { memory := [] } { memory := [] }
    { code := "A", leader := simLeaderA, relationships := [("B", 1)] }
    rfl rfl rfl (by decide) rfl
  exact ⟨h.2.1, h.2.2.1⟩

/-! ## Claim C5 -/

/-- C5: when the Generation Collaborator fails on every call,
`end_meeting` still succeeds and returns the fallback outcome — the
generic summary string, an empty relationship-change list, and one stat
delta per country with `|econ|, |war| ≤ 0.15` and `|pop| ≤ 5,000,000` —
and `conduct_round` still returns exactly one leader utterance per
leader, each the deterministic canned line keyed to that leader's
dominant trait. -/
theorem C5_total_failure_fallbacks (s : GameSession) (selIds : List String)
    (playerMsg : String) (rdec r : Nat → ℚ)
    (hr : ∀ i, 0 ≤ r i ∧ r i < 1)
    (halign : ∀ p ∈ s.agents, (alookup s.world.countries p.1).isSome) :
    (∃ s', s.end_meeting none (fun _ => none) rdec r selIds =
      some (fallbackOutcomes (akeys s.world.countries) r, s')) ∧
    (fallbackOutcomes (akeys s.world.countries) r).summary =
      some "Mixed diplomatic outcomes with some progress on key issues." ∧
    (fallbackOutcomes (akeys s.world.countries) r).relationship_changes =
      some [] ∧
    (∃ sc, (fallbackOutcomes (akeys s.world.countries) r).stat_changes =
      some sc ∧ akeys sc = akeys s.world.countries ∧
      ∀ p ∈ sc, ∃ de dw dp, p.2.econ = some de ∧ |de| ≤ 3 / 20 ∧
        p.2.war = some dw ∧ |dw| ≤ 3 / 20 ∧
        p.2.pop = some dp ∧ |dp| ≤ 5000000) ∧
    ((s.conduct_round (fun _ => none) selIds playerMsg).1.filter
        (fun x => x.rtype == "leader") =
      (akeys s.agents).map (fallbackRoundResponse s.world)) := by
  have habs : ∀ i, |r i - 1 / 2| ≤ 1 / 2 := fun i =>
    abs_le.mpr ⟨by linarith [(hr i).1], by linarith [(hr i).2]⟩
  refine ⟨⟨_, rfl⟩, rfl, rfl, ⟨_, rfl, ?_, ?_⟩, ?_⟩
  · show akeys ((List.range (akeys s.world.countries).length).map _) =
      akeys s.world.countries
    unfold akeys
    rw [List.map_map]
    exact map_getD_range (akeys s.world.countries) ""
  · intro p hp
    obtain ⟨i, hi, hpe⟩ := List.mem_map.mp hp
    refine ⟨(r (3 * i) - 1 / 2) * (1 / 10), (r (3 * i + 1) - 1 / 2) * (1 / 10),
      qtrunc ((r (3 * i + 2) - 1 / 2) * 1000000),
      by rw [← hpe], ?_, by rw [← hpe], ?_, by rw [← hpe], ?_⟩
    · rw [abs_mul]
      calc |r (3 * i) - 1 / 2| * |1 / 10|
          ≤ (1 / 2) * |1 / 10| := by
            apply mul_le_mul_of_nonneg_right (habs _) (abs_nonneg _)
      _ ≤ 3 / 20 := by rw [abs_of_nonneg] <;> norm_num
    · rw [abs_mul]
      calc |r (3 * i + 1) - 1 / 2| * |1 / 10|
          ≤ (1 / 2) * |1 / 10| := by
            apply mul_le_mul_of_nonneg_right (habs _) (abs_nonneg _)
      _ ≤ 3 / 20 := by rw [abs_of_nonneg] <;> norm_num
    · have h1 : |(qtrunc ((r (3 * i + 2) - 1 / 2) * 1000000) : ℚ)| ≤
          |(r (3 * i + 2) - 1 / 2) * 1000000| := qtrunc_abs_le _
      have h2 : |(r (3 * i + 2) - 1 / 2) * 1000000| ≤ 500000 := by
        rw [abs_mul]
        calc |r (3 * i + 2) - 1 / 2| * |(1000000 : ℚ)|
            ≤ (1 / 2) * |(1000000 : ℚ)| := by
              apply mul_le_mul_of_nonneg_right (habs _) (abs_nonneg _)
        _ ≤ 500000 := by rw [abs_of_nonneg] <;> norm_num
      have h3 : |(qtrunc ((r (3 * i + 2) - 1 / 2) * 1000000) : ℚ)| ≤
          (5000000 : ℚ) := le_trans h1 (le_trans h2 (by norm_num))
      exact_mod_cast h3
  · unfold GameSession.conduct_round
    dsimp only
    have hcountries : ∀ c ∈ akeys s.agents,
        (alookup s.world.countries c).isSome := by
      intro c hc
      obtain ⟨p, hp, hpc⟩ := List.mem_map.mp hc
      exact hpc ▸ halign p hp
    have hloop := conductRoundLoop_fail s.world (akeys s.agents) s.agents
      (fun c hc => hc) hcountries
    have hfilter : ((akeys s.agents).map
        (fallbackRoundResponse s.world)).filter
        (fun x => x.rtype == "leader") =
      (akeys s.agents).map (fallbackRoundResponse s.world) := by
      apply List.filter_eq_self.mpr
      intro x hx
      obtain ⟨code, hcode, hxe⟩ := List.mem_map.mp hx
      rw [← hxe]
      rfl
    split
    · dsimp only
      rw [List.filter_append, hloop, hfilter]
      have hp : List.filter (fun x => x.rtype == "leader")
          [({ speaker := "UN Secretary-General", content := playerMsg,
              rtype := "player" } : RoundResponse)] = [] := rfl
      rw [hp, List.append_nil]
    · dsimp only
      rw [hloop, hfilter]

/-- Witness for C5 at the concrete two-leader session with an
all-failing oracle and the constant draw 1/2. -/
theorem C5_total_failure_fallbacks_witness :
    (∃ s', simSession.end_meeting none (fun _ => none) (fun _ => 0)
      (fun _ => 1 / 2) [] =
        some (fallbackOutcomes (akeys simSession.world.countries)
          (fun _ => 1 / 2), s')) ∧
    ((simSession.conduct_round (fun _ => none) [] "").1.filter
        (fun x => x.rtype == "leader") =
      (akeys simSession.agents).map
        (fallbackRoundResponse simSession.world)) := by
  have h := C5_total_failure_fallbacks simSession [] "" (fun _ => 0)
    (fun _ => 1 / 2) (fun i => by norm_num) (by decide)
  exact ⟨h.1, h.2.2.2.2⟩

/-! ## Claim C4 -/

/-- C4 counterexample: with a live session, an event id matching no
active event is silently dropped — `conduct_round` and `end_meeting`
both succeed instead of failing with an invalid-event-selection error. -/
theorem C4_unknown_event_counterexample :
    ((simSession.world.events.map Event.eid).contains "ZZZZ" = false) ∧
    (∃ v, conduct_round_route (fun _ => none) simSessions "s1" ["ZZZZ"] ""
      = .ok v) ∧
    (∃ v, end_meeting_route (some witOutcomesEmpty)
      (fun _ => some (some false)) (fun _ => 0) (fun _ => 0) simSessions
      "s1" ["ZZZZ"] = some (.ok v)) :=
  ⟨rfl, ⟨_, rfl⟩, ⟨_, rfl⟩⟩

/-- C4 (amended): the session routes fail with the `"Invalid session"`
error exactly when the session id is absent; when the session exists the
round and time-skip succeed outright, and `end_meeting` never reports a
caller-visible error — event ids matching no active event are silently
ignored rather than rejected. -/
theorem C4_route_errors (oracle : String → Option String)
    (analyzed : Option Outcomes) (decResp : Nat → Option (Option Bool))
    (rdec r : Nat → ℚ) (eresp : Nat → Option EventAgent.EvolveResp)
    (er : Nat → ℚ) (gresp : Nat → Option EventAgent.GenEvent)
    (pick : Nat → String × String) (sessions : Sessions) (sid : String)
    (selIds : List String) (playerMsg : String) :
    (alookup sessions sid = none →
      conduct_round_route oracle sessions sid selIds playerMsg =
        .error "Invalid session" ∧
      end_meeting_route analyzed decResp rdec r sessions sid selIds =
        some (.error "Invalid session") ∧
      time_skip_route eresp er gresp pick sessions sid =
        .error "Invalid session") ∧
    (∀ s, alookup sessions sid = some s →
      conduct_round_route oracle sessions sid selIds playerMsg =
        .ok (s.conduct_round oracle selIds playerMsg) ∧
      time_skip_route eresp er gresp pick sessions sid =
        .ok (s.time_skip eresp er gresp pick) ∧
      ∀ msg, end_meeting_route analyzed decResp rdec r sessions sid selIds ≠
        some (.error msg)) := by
  constructor
  · intro hnone
    refine ⟨?_, ?_, ?_⟩ <;>
      simp only [conduct_round_route, end_meeting_route, time_skip_route,
        hnone]
  · intro s hs
    refine ⟨?_, ?_, ?_⟩
    · simp only [conduct_round_route, hs]
    · simp only [time_skip_route, hs]
    · intro msg
      simp only [end_meeting_route, hs]
      cases s.end_meeting analyzed decResp rdec r selIds with
      | none => exact fun hc => Option.noConfusion hc
      | some res =>
        intro hc
        injection hc with hc
        exact Except.noConfusion hc

/-- Witness for C4 (amended): both the unknown-session and the
live-session branches at the concrete table. -/
theorem C4_route_errors_witness :
    conduct_round_route (fun _ => none) simSessions "nope" [] "" =
      .error "Invalid session" ∧
    conduct_round_route (fun _ => none) simSessions "s1" [] "" =
      .ok (simSession.conduct_round (fun _ => none) [] "") := by
  constructor
  · exact ((C4_route_errors (fun _ => none) none (fun _ => none)
      (fun _ => 0) (fun _ => 0) (fun _ => none) (fun _ => 0)
      (fun _ => none) (fun _ => ("A", "Minor Incident")) simSessions "nope"
      [] "").1 rfl).1
  · exact (((C4_route_errors (fun _ => none) none (fun _ => none)
      (fun _ => 0) (fun _ => 0) (fun _ => none) (fun _ => 0)
      (fun _ => none) (fun _ => ("A", "Minor Incident")) simSessions "s1"
      [] "").2 simSession rfl).1)

/-! ## Claim C9 -/

/-- C9 counterexample: `evolve` assigns the collaborator-reported
`resolved` verbatim, so a response with `resolved: false` flips an
already-resolved event back to unresolved — the flag is not monotonic. -/
theorem C9_resolved_monotonic_counterexample :
    witResolvedEvent.resolved = true ∧
    (EventAgent.evolve (some { resolved := some false }) 0
      witResolvedEvent).resolved = false :=
  ⟨rfl, rfl⟩

/-- C9 (amended): `resolved` is monotonic false-to-true under every
operation except an `evolve` whose collaborator response explicitly
reports `resolved = false`: an `evolve` with a failing or
non-false-reporting response preserves a true flag, and the
`end_meeting` resolution loop only ever raises it. -/
theorem C9_resolved_monotonic_amended (resp : Option EventAgent.EvolveResp)
    (r : ℚ) (e : Event)
    (hresp : ∀ d, resp = some d → d.resolved ≠ some false)
    (he : e.resolved = true) :
    (EventAgent.evolve resp r e).resolved = true ∧
    (∀ (selIds : List String) (decResp : Nat → Option (Option Bool))
      (rdec : Nat → ℚ) (j : Nat) (es : List Event) (i : Nat) (e0 : Event),
      es.get? i = some e0 → e0.resolved = true →
      ∃ e1, (resolveLoop selIds decResp rdec j es).1.get? i = some e1 ∧
        e1.resolved = true) := by
  constructor
  · cases resp with
    | none =>
      show (if 2 < e.cycles_alive ∧ r < 3 / 10 then
        ({ e with resolved := true } : Event) else e).resolved = true
      split
      · rfl
      · exact he
    | some d =>
      show d.resolved.getD e.resolved = true
      cases hd : d.resolved with
      | none => exact he
      | some b =>
        cases b with
        | false => exact absurd hd (hresp d rfl)
        | true => rfl
  · intro selIds decResp rdec j es i e0 hget hres0
    rcases resolveLoop_get selIds decResp rdec es j i with h | h
    · exact ⟨e0, by rw [h, hget], hres0⟩
    · obtain ⟨e1, h1, h2, h3, h4⟩ := h
      exact ⟨{ e1 with resolved := true }, h4, rfl⟩

/-- Witness for C9 (amended) at a concrete resolved event and a
true-reporting response. -/
theorem C9_resolved_monotonic_amended_witness :
    (EventAgent.evolve (some { resolved := some true }) 0
      witResolvedEvent).resolved = true :=
  (C9_resolved_monotonic_amended (some { resolved := some true }) 0
    witResolvedEvent
    (fun d hd => by injection hd with h; rw [← h]; decide) rfl).1

/-- Witness for C2 at a concrete two-country session and a concrete
`end_meeting` call that moves the A-B relationship. -/
theorem C2_relationship_symmetry_witness : SymmRel witSessionAfterRel.world :=
  C2_relationship_symmetry [witRelCall] witSession witSessionAfterRel
    (by
      intro a ha b hb hab
      simp only [witSession, witWorld, witCountryA, witCountryB, akeys,
        List.map_cons, List.map_nil, List.mem_cons, List.not_mem_nil,
        or_false] at ha hb
      rcases ha with rfl | rfl <;> rcases hb with rfl | rfl <;>
        first
          | exact absurd rfl hab
          | rfl)
    rfl

/-! ## Claim C7 -/

/-- C7: for every `n` within the alphabet (`n ≤ 26`) and `rand01`-range
random streams (all draws in `[0.1, 1]`, the image of
`round(random.uniform(0.1, 1.0), 1)`), `init_world` yields exactly `n`
countries keyed by the first `n` letters, a complete symmetric
relationship graph on distinct pairs with weights in `[0.1, 1]`, no
self-relationship entries, and every trait, `econ_power` and `war_power`
in `[0.1, 1]`. -/
theorem C7_init_world_properties (n : Nat) (hn : n ≤ 26)
    (tv : Nat → Nat → ℚ) (ag : Nat → Nat) (ev wv : Nat → ℚ)
    (pk : Nat → Nat) (bio : Nat → Option String) (rw0 : Nat → Nat → ℚ)
    (htv : ∀ i t, 1/10 ≤ tv i t ∧ tv i t ≤ 1)
    (hev : ∀ i, 1/10 ≤ ev i ∧ ev i ≤ 1)
    (hwv : ∀ i, 1/10 ≤ wv i ∧ wv i ≤ 1)
    (hrw : ∀ i j, 1/10 ≤ rw0 i j ∧ rw0 i j ≤ 1)
    (w : WorldState) (hw : w = init_world n tv ag ev wv pk bio rw0) :
    akeys w.countries = worldCodes n ∧
    w.countries.length = n ∧
    (∀ x y, x < n → y < n → x ≠ y →
      ∃ v, w.relLookup (mkCode x) (mkCode y) = some v ∧
        w.relLookup (mkCode y) (mkCode x) = some v ∧
        1/10 ≤ v ∧ v ≤ 1) ∧
    (∀ x, x < n → w.relLookup (mkCode x) (mkCode x) = none) ∧
    (∀ p ∈ w.countries,
      (∀ t ∈ p.2.leader.traits, 1/10 ≤ t.2 ∧ t.2 ≤ 1) ∧
      (1/10 ≤ p.2.leader.econ_power ∧ p.2.leader.econ_power ≤ 1) ∧
      (1/10 ≤ p.2.leader.war_power ∧ p.2.leader.war_power ≤ 1)) := by
  subst hw
  rw [init_world_eq_fold]
  have hb3 : ∀ p ∈ pairList n, p.1 < n ∧ p.2 < n ∧ p.1 < p.2 := by
    intro p hp
    obtain ⟨i, j⟩ := p
    rw [pairList_mem] at hp
    exact ⟨by omega, hp.2, hp.1⟩
  have hpres := initBase_codesPresent n hn tv ag ev wv pk bio
  have hak := foldRel_akeys n rw0 (pairList n)
    (initBase n tv ag ev wv pk bio)
    (fun p hp => ⟨(hb3 p hp).1, (hb3 p hp).2.1⟩) hpres
  have hlk := foldRel_lookup n hn rw0 (pairList n)
    (initBase n tv ag ev wv pk bio) hb3 hpres
  refine ⟨?_, ?_, ?_, ?_, ?_⟩
  · rw [hak, initBase_akeys n tv ag ev wv pk bio]
  · have h3 := congrArg List.length
      (hak.trans (initBase_akeys n tv ag ev wv pk bio))
    simpa [akeys, worldCodes] using h3
  · intro x y hx hy hxy
    rcases Nat.lt_or_ge x y with hlt | hge
    · refine ⟨rw0 x y, ?_, ?_, (hrw x y).1, (hrw x y).2⟩
      · rw [hlk x y hx hy, if_pos ((pairList_mem n x y).mpr ⟨hlt, hy⟩)]
      · rw [hlk y x hy hx,
          if_neg (fun hc =>
            absurd ((pairList_mem n y x).mp hc).1 (by omega)),
          if_pos ((pairList_mem n x y).mpr ⟨hlt, hy⟩)]
    · have hlt : y < x := by omega
      refine ⟨rw0 y x, ?_, ?_, (hrw y x).1, (hrw y x).2⟩
      · rw [hlk x y hx hy,
          if_neg (fun hc =>
            absurd ((pairList_mem n x y).mp hc).1 (by omega)),
          if_pos ((pairList_mem n y x).mpr ⟨hlt, hx⟩)]
      · rw [hlk y x hy hx, if_pos ((pairList_mem n y x).mpr ⟨hlt, hx⟩)]
  · intro x hx
    rw [hlk x x hx hx,
      if_neg (fun hc =>
        absurd ((pairList_mem n x x).mp hc).1 (lt_irrefl x)),
      if_neg (fun hc =>
        absurd ((pairList_mem n x x).mp hc).1 (lt_irrefl x)),
      initBase_relLookup n tv ag ev wv pk bio (mkCode x) (mkCode x)]
  · intro p hp
    obtain ⟨q, hq, hk, hl⟩ := foldRel_leader_mem n rw0 (pairList n)
      (initBase n tv ag ev wv pk bio) p hp
    obtain ⟨i, hi, hqi⟩ := List.mem_map.mp (show q ∈
      (List.range n).map (fun i =>
        (mkCode i, initCountry tv ag ev wv pk bio i)) from hq)
    rw [hl, ← hqi]
    refine ⟨?_, hev i, hwv i⟩
    intro t ht
    obtain ⟨k, hk5, hkt⟩ := List.mem_map.mp (show t ∈
      (List.range TRAIT_NAMES.length).map (fun k =>
        (TRAIT_NAMES.getD k "", tv i k)) from ht)
    rw [← hkt]
    exact htv i k

/-- Witness for C7 at `n = 2` with all random draws equal to `1/2`. -/
theorem C7_init_world_properties_witness :
    (init_world 2 (fun _ _ => (1 : ℚ)/2) (fun _ => 50) (fun _ => (1 : ℚ)/2)
      (fun _ => (1 : ℚ)/2) (fun _ => 10) (fun _ => none)
      (fun _ _ => (1 : ℚ)/2)).countries.length = 2 ∧
    akeys (init_world 2 (fun _ _ => (1 : ℚ)/2) (fun _ => 50)
      (fun _ => (1 : ℚ)/2) (fun _ => (1 : ℚ)/2) (fun _ => 10)
      (fun _ => none) (fun _ _ => (1 : ℚ)/2)).countries = worldCodes 2 :=
  have h := C7_init_world_properties 2 (by norm_num)
    (fun _ _ => (1 : ℚ)/2) (fun _ => 50) (fun _ => (1 : ℚ)/2)
    (fun _ => (1 : ℚ)/2) (fun _ => 10) (fun _ => none)
    (fun _ _ => (1 : ℚ)/2)
    (fun _ _ => by norm_num) (fun _ => by norm_num) (fun _ => by norm_num)
    (fun _ _ => by norm_num)
    (init_world 2 (fun _ _ => (1 : ℚ)/2) (fun _ => 50) (fun _ => (1 : ℚ)/2)
      (fun _ => (1 : ℚ)/2) (fun _ => 10) (fun _ => none)
      (fun _ _ => (1 : ℚ)/2)) rfl
  ⟨h.2.1, h.1⟩

end TheModerator
